import Mathlib

/-!
# Verification of the order/return/exchange service layer

Shallow embedding of the service layer of a retail order-fulfilment backend
(`app/services/orders.py`, `app/services/returns.py`, `app/services/exchanges.py`).

Modelling conventions:
* MongoDB ObjectIds are abstracted to natural numbers (`OID`).
* A collection is a list of documents; `find_one` is `List.find?` on the list,
  `find_one_and_update` replaces the first matching document.
* Python `int` is `Int`, money (`float` used only for exact decimal amounts)
  is `ℚ`; `round(x, 2)` is modelled with round-half-to-even, matching Python.
* Calendar days are day numbers (`Int`); `(a - b).days` is plain subtraction.
* A MongoDB multi-document transaction is modelled by running the writes on a
  working copy of the state: on any error the service returns the *original*
  state (abort), on success the fully written state (commit).  Fallibility of
  the individual inserts/deletes inside the transaction is modelled by a
  `FailSpec` oracle.
* `fastapi.HTTPException` is the `Err` structure (status code + detail).
* Timestamps (`createdAt`/`updatedAt`, `stamp_create`/`stamp_update`) are not
  modelled; no claim mentions them.
-/

namespace TrueStyle

/-- `fastapi.HTTPException`: an HTTP status code plus a detail message. -/
structure Err where
  status_code : Nat
  detail : String
deriving Repr, DecidableEq

/-- Abstracted MongoDB ObjectId. -/
abbrev OID := Nat

/-- Python's `str.strip()` on the character list level. -/
def stripChars (l : List Char) : List Char :=
  ((l.dropWhile Char.isWhitespace).reverse.dropWhile Char.isWhitespace).reverse

/-- Python's `str.strip()`. -/
def pyStrip (s : String) : String := String.mk (stripChars s.toList)

/-- Python's `str.lower()` (ASCII as used by this code base). -/
def pyLower (s : String) : String := String.mk (s.toList.map Char.toLower)

/-- Python's `str.replace(" ", "")`: remove every space character. -/
def removeSpaces (s : String) : String := String.mk (s.toList.filter (fun c => c ≠ ' '))

/-- Round half to even (Python's `round` tie-breaking), to an integer. -/
def roundHalfEven (q : ℚ) : ℤ :=
  let f := ⌊q⌋
  let r := q - f
  if r < 1/2 then f
  else if r > 1/2 then f + 1
  else if f % 2 = 0 then f else f + 1

/-- `round(x, 2)` from the Python sources. -/
def round2 (q : ℚ) : ℚ := (roundHalfEven (q * 100) : ℚ) / 100

-- ----------------- data model -----------------

/-- A `products` document (the fields the services project/touch). -/
structure Product where
  id : OID
  price : Option ℚ
  total_price : Option ℚ
  quantity : Int
  out_of_stock : Bool
deriving Repr, DecidableEq

/-- The address snapshot embedded into an order at placement time. -/
structure AddrSnap where
  mobile_no : String
  postal_code : String
  country : String
  state : String
  city : String
  address : String
deriving Repr, DecidableEq

/-- A `user_address` document. -/
structure UserAddress where
  id : OID
  user_id : OID
  snap : AddrSnap
deriving Repr, DecidableEq

/-- A `payment_types` document. -/
structure PaymentType where
  id : OID
  type : String
deriving Repr, DecidableEq

/-- A `payment_status` document. -/
structure PaymentStatusDoc where
  id : OID
  status : String
deriving Repr, DecidableEq

/-- An `order_status` document. -/
structure OrderStatusDoc where
  id : OID
  status : String
  slug : String
deriving Repr, DecidableEq

/-- An `orders` document.  `delivery_otp` is stored as the zero-padded string
produced by `_gen_otp`; `delivery_date` is a day number (`None` if absent). -/
structure OrderDoc where
  id : OID
  user_id : OID
  address : AddrSnap
  status_id : OID
  total : ℚ
  delivery_date : Option Int
  delivery_otp : Option String
deriving Repr, DecidableEq

/-- A `carts` document. -/
structure Cart where
  id : OID
  user_id : OID
deriving Repr, DecidableEq

/-- A `cart_items` document. -/
structure CartItem where
  cart_id : OID
  product_id : OID
  quantity : Int
  size : Option String
deriving Repr, DecidableEq

/-- An `order_items` document. -/
structure OrderItemRow where
  id : OID
  order_id : OID
  product_id : OID
  quantity : Int
  size : Option String
  user_id : OID
deriving Repr, DecidableEq

/-- A `payments` document. -/
structure PaymentRow where
  id : OID
  user_id : OID
  order_id : OID
  payment_types_id : OID
  payment_status_id : OID
  invoice_no : String
  delivery_fee : Int
  amount : ℚ
deriving Repr, DecidableEq

/-- A `card_details` document (`card_no` holds the encrypted number). -/
structure CardRow where
  payment_id : OID
  name : String
  card_no : String
deriving Repr, DecidableEq

/-- A `upi_details` document. -/
structure UpiRow where
  payment_id : OID
  upi_id : String
deriving Repr, DecidableEq

/-- A `returns` document. -/
structure ReturnRec where
  id : OID
  order_id : OID
  product_id : OID
  return_status_id : OID
  user_id : OID
  reason : Option String
  quantity : Int
  amount : ℚ
deriving Repr, DecidableEq

/-- An `exchanges` document. -/
structure ExchangeRec where
  id : OID
  order_id : OID
  product_id : OID
  exchange_status_id : OID
  user_id : OID
  reason : Option String
  new_quantity : Int
  new_size : Option String
deriving Repr, DecidableEq

/-- A `return_status` / `exchange_status` reference document. -/
structure StatusRef where
  id : OID
  status : String
deriving Repr, DecidableEq

/-- The document store: one list per collection the services touch. -/
structure DB where
  products : List Product
  user_address : List UserAddress
  payment_types : List PaymentType
  payment_status : List PaymentStatusDoc
  order_status : List OrderStatusDoc
  carts : List Cart
  cart_items : List CartItem
  orders : List OrderDoc
  order_items : List OrderItemRow
  payments : List PaymentRow
  card_details : List CardRow
  upi_details : List UpiRow
  return_status : List StatusRef
  exchange_status : List StatusRef
  returns : List ReturnRec
  exchanges : List ExchangeRec
deriving Repr, DecidableEq

/-- Mongo `find_one_and_update`: rewrite the first document matching `p`
with `f`, returning the updated collection and the AFTER document. -/
def findOneAndUpdate (p : α → Bool) (f : α → α) : List α → Option (List α × α)
  | [] => none
  | x :: xs =>
    if p x then some (f x :: xs, f x)
    else
      match findOneAndUpdate p f xs with
      | some (xs', d) => some (x :: xs', d)
      | none => none

/-- `Except.isOk` as a Bool. -/
def exceptOk : Except ε α → Bool
  | .ok _ => true
  | .error _ => false

-- ----------------- returns / exchanges services -----------------

/-- `app/services/returns.py::_ensure_within_7_days`. -/
def ensure_within_7_days_return (delivery_date today : Int) : Except Err Unit :=
  let delta_days := today - delivery_date
  if delta_days < 0 then .error ⟨400, "Delivery date cannot be in the future"⟩
  else if delta_days > 7 then .error ⟨400, "Return window expired (delivery + 7 days)"⟩
  else .ok ()

/-- `app/services/exchanges.py::_ensure_within_7_days`. -/
def ensure_within_7_days_exchange (delivery_date today : Int) : Except Err Unit :=
  let delta_days := today - delivery_date
  if delta_days < 0 then .error ⟨400, "Delivery date cannot be in the future"⟩
  else if delta_days > 7 then .error ⟨400, "Exchange window expired (delivery + 7 days)"⟩
  else .ok ()

/-- `app/services/returns.py::_already_returned_qty`: the aggregation pipeline
matching `{order_id, product_id}` and summing `quantity`. -/
def already_returned_qty (returns : List ReturnRec) (oid pid : OID) : Int :=
  (returns.filter (fun r => r.order_id == oid && r.product_id == pid)).foldl
    (fun acc r => acc + r.quantity) 0

/-- `app/services/returns.py::_price_of` together with the `Product` document:
prefer `total_price`, then `price`, else `0.0`. -/
def priceOf (p : Product) : ℚ := p.total_price.getD (p.price.getD 0)

/-- `app/services/returns.py::_get_status_id`. -/
def get_return_status_id (db : DB) (label : String) : Except Err OID :=
  match db.return_status.find? (fun s => s.status == label) with
  | none => .error ⟨500, "Return status " ++ label ++ " not found"⟩
  | some d => .ok d.id

/-- `app/services/exchanges.py::_get_exchange_status_id_by_label`. -/
def get_exchange_status_id (db : DB) (label : String) : Except Err OID :=
  match db.exchange_status.find? (fun s => s.status == label) with
  | none => .error ⟨500, "Exchange status " ++ label ++ " not found"⟩
  | some d => .ok d.id

/-- `app/services/returns.py::create_return_service`.  The image upload is
elided (the claims do not touch it); `crud.create` (the `app/crud` module is
not part of the sources) is
*Modelled from the spec:* creating the Return record appends it to the
`returns` collection.  Returns the post-call store and the result. -/
def create_return_service (db : DB) (order_item_id : OID) (qty : Int)
    (reason : Option String) (user_id : OID) (today : Int) (new_return_id : OID) :
    DB × Except Err ReturnRec :=
  if qty ≤ 0 then (db, .error ⟨400, "quantity must be greater than 0"⟩)
  else
    match db.order_items.find? (fun x => x.id == order_item_id) with
    | none => (db, .error ⟨404, "Order item not found"⟩)
    | some oi =>
      match db.orders.find? (fun o => o.id == oi.order_id) with
      | none => (db, .error ⟨404, "Order not found"⟩)
      | some order =>
        if order.user_id ≠ user_id then (db, .error ⟨403, "Forbidden"⟩)
        else
          match order.delivery_date with
          | none => (db, .error ⟨400, "Order does not contain delivery_date; return cannot be created."⟩)
          | some dd =>
            match ensure_within_7_days_return dd today with
            | .error e => (db, .error e)
            | .ok _ =>
              let prior := already_returned_qty db.returns oi.order_id oi.product_id
              let available := max 0 (oi.quantity - prior)
              if qty > available then
                (db, .error ⟨400, "Only " ++ toString available ++ " items can be returned for this order item"⟩)
              else
                match db.products.find? (fun p => p.id == oi.product_id) with
                | none => (db, .error ⟨404, "Product not found"⟩)
                | some prod =>
                  let amount := round2 (priceOf prod * (qty : ℚ))
                  match get_return_status_id db "approved" with
                  | .error e => (db, .error e)
                  | .ok sid =>
                    let r : ReturnRec :=
                      ⟨new_return_id, oi.order_id, oi.product_id, sid, user_id, reason, qty, amount⟩
                    ({ db with returns := db.returns ++ [r] }, .ok r)

/-- `app/services/exchanges.py::create_exchange_service` (image elided;
`crud.create` *Modelled from the spec:* appends the Exchange record). -/
def create_exchange_service (db : DB) (order_item_id : OID) (reason : Option String)
    (new_quantity : Int) (new_size : Option String) (user_id : OID) (today : Int)
    (new_exchange_id : OID) : DB × Except Err ExchangeRec :=
  match db.order_items.find? (fun x => x.id == order_item_id) with
  | none => (db, .error ⟨404, "Order item not found"⟩)
  | some oi =>
    match db.orders.find? (fun o => o.id == oi.order_id && o.user_id == user_id) with
    | none => (db, .error ⟨404, "Order not found for user"⟩)
    | some order =>
      match order.delivery_date with
      | none => (db, .error ⟨400, "Order does not contain delivery_date; exchange cannot be created."⟩)
      | some dd =>
        match ensure_within_7_days_exchange dd today with
        | .error e => (db, .error e)
        | .ok _ =>
          match get_exchange_status_id db "approved" with
          | .error e => (db, .error e)
          | .ok sid =>
            let r : ExchangeRec :=
              ⟨new_exchange_id, oi.order_id, oi.product_id, sid, user_id, reason,
                new_quantity, new_size⟩
            ({ db with exchanges := db.exchanges ++ [r] }, .ok r)

/-- `app/services/returns.py::admin_update_return_status_service`
(`crud.update_one` *Modelled from the spec:* a status-only update of the
matching Return record). -/
def admin_update_return_status_service (db : DB) (return_id : OID)
    (return_status_id : Option OID) : DB × Except Err ReturnRec :=
  match return_status_id with
  | none => (db, .error ⟨400, "return_status_id is required"⟩)
  | some sid =>
    match findOneAndUpdate (fun r => r.id == return_id)
        (fun r => { r with return_status_id := sid }) db.returns with
    | none => (db, .error ⟨404, "Return not found or not updated"⟩)
    | some (rs, d) => ({ db with returns := rs }, .ok d)

-- ----------------- general lemmas -----------------

theorem foldl_add_shift {M : Type _} [AddCommMonoid M] (f : α → M) :
    ∀ (l : List α) (a : M),
      l.foldl (fun acc x => acc + f x) a = a + l.foldl (fun acc x => acc + f x) 0 := by
  intro l
  induction l with
  | nil => intro a; simp
  | cons x xs ih =>
    intro a
    simp only [List.foldl_cons]
    rw [ih (a + f x), ih (0 + f x)]
    rw [zero_add, add_assoc]

theorem already_returned_qty_nil (oid pid : OID) : already_returned_qty [] oid pid = 0 := rfl

theorem already_returned_qty_cons (r : ReturnRec) (R : List ReturnRec) (oid pid : OID) :
    already_returned_qty (r :: R) oid pid =
      (if r.order_id = oid ∧ r.product_id = pid then r.quantity else 0) +
        already_returned_qty R oid pid := by
  unfold already_returned_qty
  rw [List.filter_cons]
  by_cases h : r.order_id = oid ∧ r.product_id = pid
  · rw [if_pos (by simpa using h), if_pos h]
    simp only [List.foldl_cons, zero_add]
    exact foldl_add_shift _ _ _
  · rw [if_neg (by simpa using h), if_neg h, zero_add]

theorem already_returned_qty_eq_sum (R : List ReturnRec) (oid pid : OID) :
    already_returned_qty R oid pid =
      (R.map (fun r => if r.order_id = oid ∧ r.product_id = pid then r.quantity else 0)).sum := by
  induction R with
  | nil => rfl
  | cons r rs ih => rw [already_returned_qty_cons, List.map_cons, List.sum_cons, ih]

theorem already_returned_qty_append_single (R : List ReturnRec) (r : ReturnRec) (oid pid : OID) :
    already_returned_qty (R ++ [r]) oid pid =
      already_returned_qty R oid pid +
        (if r.order_id = oid ∧ r.product_id = pid then r.quantity else 0) := by
  rw [already_returned_qty_eq_sum, List.map_append, List.sum_append]
  rw [already_returned_qty_eq_sum]
  simp

/-- `already_returned_qty` only looks at the (order id, product id, quantity)
projection of each Return record. -/
theorem already_returned_qty_eq_of_proj_eq (R R' : List ReturnRec)
    (h : R.map (fun r => (r.order_id, r.product_id, r.quantity)) =
         R'.map (fun r => (r.order_id, r.product_id, r.quantity)))
    (oid pid : OID) :
    already_returned_qty R oid pid = already_returned_qty R' oid pid := by
  rw [already_returned_qty_eq_sum, already_returned_qty_eq_sum]
  have : ∀ (l : List ReturnRec),
      l.map (fun r => if r.order_id = oid ∧ r.product_id = pid then r.quantity else 0) =
        (l.map (fun r => (r.order_id, r.product_id, r.quantity))).map
          (fun t => if t.1 = oid ∧ t.2.1 = pid then t.2.2 else 0) := by
    intro l; rw [List.map_map]; rfl
  rw [this, this, h]

theorem findOneAndUpdate_proj_eq {p : α → Bool} {f : α → α} {g : α → β}
    (hg : ∀ x, g (f x) = g x) :
    ∀ {l l' : List α} {d : α}, findOneAndUpdate p f l = some (l', d) →
      l'.map g = l.map g := by
  intro l
  induction l with
  | nil => intro l' d h; simp [findOneAndUpdate] at h
  | cons x xs ih =>
    intro l' d h
    unfold findOneAndUpdate at h
    by_cases hp : p x
    · rw [if_pos hp] at h
      simp only [Option.some.injEq, Prod.mk.injEq] at h
      obtain ⟨h1, _⟩ := h
      subst h1
      simp [hg]
    · rw [if_neg hp] at h
      cases hrec : findOneAndUpdate p f xs with
      | none => rw [hrec] at h; simp at h
      | some v =>
        obtain ⟨xs', d'⟩ := v
        rw [hrec] at h
        simp only [Option.some.injEq, Prod.mk.injEq] at h
        obtain ⟨h1, _⟩ := h
        subst h1
        simp only [List.map_cons]
        rw [ih hrec]

-- ----------------- C6: 7-day post-sale window -----------------

/-- C6: the return/exchange window check (with `elapsed = today - delivery_date`
in whole days) rejects with a 400-class `InvalidInput` error exactly when
`elapsed < 0` (future delivery date) or `elapsed > 7`, and passes otherwise;
so day 7 passes, day 8 fails, and a future delivery date fails.  This holds for
both `returns.py::_ensure_within_7_days` and `exchanges.py::_ensure_within_7_days`. -/
theorem post_sale_window_spec (delivery_date today : Int) :
    (ensure_within_7_days_return delivery_date today = .ok () ↔
      0 ≤ today - delivery_date ∧ today - delivery_date ≤ 7) ∧
    (ensure_within_7_days_exchange delivery_date today = .ok () ↔
      0 ≤ today - delivery_date ∧ today - delivery_date ≤ 7) ∧
    ((today - delivery_date < 0 ∨ 7 < today - delivery_date) →
      ∃ e₁ e₂ : Err,
        ensure_within_7_days_return delivery_date today = .error e₁ ∧ e₁.status_code = 400 ∧
        ensure_within_7_days_exchange delivery_date today = .error e₂ ∧ e₂.status_code = 400) := by
  refine ⟨?_, ?_, ?_⟩
  · simp only [ensure_within_7_days_return]
    split_ifs with h1 h2 <;> simp <;> omega
  · simp only [ensure_within_7_days_exchange]
    split_ifs with h1 h2 <;> simp <;> omega
  · intro h
    simp only [ensure_within_7_days_return, ensure_within_7_days_exchange]
    split_ifs with h1 h2
    · exact ⟨_, _, rfl, rfl, rfl, rfl⟩
    · exact ⟨_, _, rfl, rfl, rfl, rfl⟩
    · omega

/-- Witness for `post_sale_window_spec`: a request 8 days after delivery is
rejected by both window checks with a 400 error. -/
theorem post_sale_window_spec_witness :
    ∃ e₁ e₂ : Err,
      ensure_within_7_days_return 0 8 = .error e₁ ∧ e₁.status_code = 400 ∧
      ensure_within_7_days_exchange 0 8 = .error e₂ ∧ e₂.status_code = 400 :=
  (post_sale_window_spec 0 8).2.2 (by decide)

-- ----------------- C9: ownership on post-sale creation -----------------

/-- An empty address snapshot for concrete examples. -/
def exSnap : AddrSnap := ⟨"", "", "", "", "", ""⟩

/-- Concrete store for the ownership counterexample: order 10 belongs to user 1
and was delivered today; order item 20 references it; user 2 makes the request. -/
def ownDB : DB :=
  { products := [⟨30, some 10, none, 5, false⟩]
    user_address := []
    payment_types := []
    payment_status := []
    order_status := []
    carts := []
    cart_items := []
    orders := [⟨10, 1, exSnap, 5, 0, some 0, none⟩]
    order_items := [⟨20, 10, 30, 1, none, 1⟩]
    payments := []
    card_details := []
    upi_details := []
    return_status := [⟨7, "approved"⟩]
    exchange_status := [⟨8, "approved"⟩]
    returns := []
    exchanges := [] }

/-- C9 counterexample: when the order derived from the order item exists but
belongs to another user, *exchange* creation does not fail with `Forbidden`
(403) as the claim states — it fails with 404 "Order not found for user". -/
theorem exchange_ownership_counterexample :
    (create_exchange_service ownDB 20 none 1 none 2 0 99).2 =
      .error ⟨404, "Order not found for user"⟩ ∧
    (create_exchange_service ownDB 20 none 1 none 2 0 99).2 ≠
      .error ⟨403, "Forbidden"⟩ := by
  constructor
  · rfl
  · rw [show (create_exchange_service ownDB 20 none 1 none 2 0 99).2 =
        .error ⟨404, "Order not found for user"⟩ from rfl]
    intro h
    exact absurd (Except.error.inj h) (by decide)

/-- C9 (amended): when the order derived from the order item exists but does
not belong to the requesting user, *return* creation fails with `Forbidden`
(403) and *exchange* creation fails with `NotFound` (404, "Order not found for
user"); in both cases the store is unchanged, so no Return/Exchange record is
created. -/
theorem post_sale_ownership_amended
    (db : DB) (ret_item_id exch_item_id : OID) (qty : Int) (reason : Option String)
    (user_id : OID) (today : Int) (nid : OID)
    (oiR oiE : OrderItemRow) (oR : OrderDoc)
    (hqty : 0 < qty)
    (hiR : db.order_items.find? (fun x => x.id == ret_item_id) = some oiR)
    (hoR : db.orders.find? (fun o => o.id == oiR.order_id) = some oR)
    (hownR : oR.user_id ≠ user_id)
    (hiE : db.order_items.find? (fun x => x.id == exch_item_id) = some oiE)
    (hoEex : ∃ o ∈ db.orders, o.id = oiE.order_id)
    (hoEall : ∀ o ∈ db.orders, o.id = oiE.order_id → o.user_id ≠ user_id) :
    create_return_service db ret_item_id qty reason user_id today nid =
      (db, .error ⟨403, "Forbidden"⟩) ∧
    create_exchange_service db exch_item_id reason 1 none user_id today nid =
      (db, .error ⟨404, "Order not found for user"⟩) := by
  constructor
  · unfold create_return_service
    rw [if_neg (by omega)]
    simp only [hiR, hoR]
    rw [if_pos hownR]
  · have hfind : db.orders.find? (fun o => o.id == oiE.order_id && o.user_id == user_id)
        = none := by
      rw [List.find?_eq_none]
      intro o ho
      simp only [Bool.and_eq_true, beq_iff_eq, not_and]
      exact fun h1 => hoEall o ho h1
    unfold create_exchange_service
    simp only [hiE, hfind]

/-- Witness for `post_sale_ownership_amended` on the concrete store `ownDB`
(order owned by user 1, request by user 2). -/
theorem post_sale_ownership_amended_witness :
    create_return_service ownDB 20 1 none 2 0 99 = (ownDB, .error ⟨403, "Forbidden"⟩) ∧
    create_exchange_service ownDB 20 none 1 none 2 0 99 =
      (ownDB, .error ⟨404, "Order not found for user"⟩) :=
  post_sale_ownership_amended ownDB 20 20 1 none 2 0 99
    ⟨20, 10, 30, 1, none, 1⟩ ⟨20, 10, 30, 1, none, 1⟩ ⟨10, 1, exSnap, 5, 0, some 0, none⟩
    (by decide) (by decide) (by decide) (by decide) (by decide)
    ⟨⟨10, 1, exSnap, 5, 0, some 0, none⟩, by decide, by decide⟩ (by decide)

-- ----------------- characterization of create_return_service -----------------

/-- Full characterization of a *successful* return creation: every guard along
the service's control flow passed, and the store gained exactly the one record. -/
theorem create_return_ok {db : DB} {item : OID} {qty : Int} {reason : Option String}
    {uid : OID} {today : Int} {nid : OID} {db' : DB} {r : ReturnRec}
    (h : create_return_service db item qty reason uid today nid = (db', .ok r)) :
    0 < qty ∧
    ∃ oi order dd prod sid,
      db.order_items.find? (fun x => x.id == item) = some oi ∧
      db.orders.find? (fun o => o.id == oi.order_id) = some order ∧
      order.user_id = uid ∧
      order.delivery_date = some dd ∧
      ensure_within_7_days_return dd today = .ok () ∧
      qty ≤ max 0 (oi.quantity - already_returned_qty db.returns oi.order_id oi.product_id) ∧
      db.products.find? (fun p => p.id == oi.product_id) = some prod ∧
      get_return_status_id db "approved" = .ok sid ∧
      r = ⟨nid, oi.order_id, oi.product_id, sid, uid, reason, qty,
            round2 (priceOf prod * (qty : ℚ))⟩ ∧
      db' = { db with returns := db.returns ++ [r] } := by
  unfold create_return_service at h
  by_cases hq : qty ≤ 0
  · rw [if_pos hq] at h; simp at h
  rw [if_neg hq] at h
  cases hoi : db.order_items.find? (fun x => x.id == item) with
  | none => rw [hoi] at h; simp at h
  | some oi =>
    simp only [hoi] at h
    cases hor : db.orders.find? (fun o => o.id == oi.order_id) with
    | none => rw [hor] at h; simp at h
    | some order =>
      simp only [hor] at h
      by_cases hu : order.user_id ≠ uid
      · rw [if_pos hu] at h; simp at h
      rw [if_neg hu] at h
      push_neg at hu
      cases hdd : order.delivery_date with
      | none => rw [hdd] at h; simp at h
      | some dd =>
        simp only [hdd] at h
        cases hw : ensure_within_7_days_return dd today with
        | error e => rw [hw] at h; simp at h
        | ok u =>
          simp only [hw] at h
          by_cases hqa : qty >
              max 0 (oi.quantity - already_returned_qty db.returns oi.order_id oi.product_id)
          · rw [if_pos hqa] at h; simp at h
          rw [if_neg hqa] at h
          push_neg at hqa
          cases hprod : db.products.find? (fun p => p.id == oi.product_id) with
          | none => rw [hprod] at h; simp at h
          | some prod =>
            simp only [hprod] at h
            cases hst : get_return_status_id db "approved" with
            | error e => rw [hst] at h; simp at h
            | ok sid =>
              simp only [hst] at h
              simp only [Prod.mk.injEq, Except.ok.injEq] at h
              obtain ⟨h1, h2⟩ := h
              refine ⟨by omega, oi, order, dd, prod, sid, rfl, hor, hu, hdd, hw, hqa,
                hprod, rfl, h2.symm, ?_⟩
              rw [← h1, h2]

/-- A failed return creation leaves the store untouched. -/
theorem create_return_error {db : DB} {item : OID} {qty : Int} {reason : Option String}
    {uid : OID} {today : Int} {nid : OID} {db' : DB} {e : Err}
    (h : create_return_service db item qty reason uid today nid = (db', .error e)) :
    db' = db := by
  unfold create_return_service at h
  by_cases hq : qty ≤ 0
  · rw [if_pos hq] at h; exact (Prod.ext_iff.mp h).1.symm
  rw [if_neg hq] at h
  cases hoi : db.order_items.find? (fun x => x.id == item) with
  | none => rw [hoi] at h; exact (Prod.ext_iff.mp h).1.symm
  | some oi =>
    simp only [hoi] at h
    cases hor : db.orders.find? (fun o => o.id == oi.order_id) with
    | none => rw [hor] at h; exact (Prod.ext_iff.mp h).1.symm
    | some order =>
      simp only [hor] at h
      by_cases hu : order.user_id ≠ uid
      · rw [if_pos hu] at h; exact (Prod.ext_iff.mp h).1.symm
      rw [if_neg hu] at h
      cases hdd : order.delivery_date with
      | none => rw [hdd] at h; exact (Prod.ext_iff.mp h).1.symm
      | some dd =>
        simp only [hdd] at h
        cases hw : ensure_within_7_days_return dd today with
        | error e2 => rw [hw] at h; exact (Prod.ext_iff.mp h).1.symm
        | ok u =>
          simp only [hw] at h
          by_cases hqa : qty >
              max 0 (oi.quantity - already_returned_qty db.returns oi.order_id oi.product_id)
          · rw [if_pos hqa] at h; exact (Prod.ext_iff.mp h).1.symm
          rw [if_neg hqa] at h
          cases hprod : db.products.find? (fun p => p.id == oi.product_id) with
          | none => rw [hprod] at h; exact (Prod.ext_iff.mp h).1.symm
          | some prod =>
            simp only [hprod] at h
            cases hst : get_return_status_id db "approved" with
            | error e2 => rw [hst] at h; exact (Prod.ext_iff.mp h).1.symm
            | ok sid =>
              simp only [hst] at h
              exact absurd (Prod.ext_iff.mp h).2 (by simp)

-- ----------------- C10: already-returned accounting is keyed by pair -----------------

/-- C10 (implicit): the already-returned accounting is keyed by the
(order id, product id) pair and ignores the record's status and originating
order item.  (a) `_already_returned_qty` is the sum of `quantity` over *all*
Return records with that pair (no status filter); (b) an admin status update
of any Return record never changes the accounted sum; (c) every successful
return creation — whichever order item it targeted — increments the pair's
accounted sum by the requested quantity, thereby reducing what is still
allowed for every order line of that pair. -/
theorem already_returned_keying :
    (∀ (R : List ReturnRec) (oid pid : OID),
        already_returned_qty R oid pid =
          (R.map (fun r => if r.order_id = oid ∧ r.product_id = pid then r.quantity else 0)).sum) ∧
    (∀ (db : DB) (rid : OID) (s : Option OID) (oid pid : OID),
        already_returned_qty ((admin_update_return_status_service db rid s).1).returns oid pid =
          already_returned_qty db.returns oid pid) ∧
    (∀ (db : DB) (item : OID) (qty : Int) (reason : Option String) (uid : OID)
        (today : Int) (nid : OID) (db' : DB) (r : ReturnRec),
        create_return_service db item qty reason uid today nid = (db', .ok r) →
        already_returned_qty db'.returns r.order_id r.product_id =
          already_returned_qty db.returns r.order_id r.product_id + qty) := by
  refine ⟨already_returned_qty_eq_sum, ?_, ?_⟩
  · intro db rid s oid pid
    cases s with
    | none => rfl
    | some sid =>
      unfold admin_update_return_status_service
      cases hfu : findOneAndUpdate (fun r => r.id == rid)
          (fun r => { r with return_status_id := sid }) db.returns with
      | none => simp only [hfu]
      | some v =>
        obtain ⟨rs, d⟩ := v
        simp only [hfu]
        exact already_returned_qty_eq_of_proj_eq _ _
          (findOneAndUpdate_proj_eq (p := fun r : ReturnRec => r.id == rid)
            (f := fun r : ReturnRec => { r with return_status_id := sid })
            (g := fun r : ReturnRec => (r.order_id, r.product_id, r.quantity))
            (fun x => rfl) hfu) oid pid
  · intro db item0 qty reason uid today nid db' r h
    obtain ⟨hq, oi, order, dd, prod, sid, _, _, _, _, _, _, _, _, hr, hdb⟩ :=
      create_return_ok h
    rw [hdb]
    simp only
    rw [already_returned_qty_append_single]
    rw [if_pos ⟨rfl, rfl⟩]
    rw [hr]

/-- Witness for `already_returned_keying`: a successful return of quantity 1
against order item 20 of `ownDB` raises the accounted sum for the
(order 10, product 30) pair from 0 to 1. -/
theorem already_returned_keying_witness :
    already_returned_qty ((create_return_service ownDB 20 1 none 1 0 99).1).returns 10 30 =
      already_returned_qty ownDB.returns 10 30 + 1 :=
  already_returned_keying.2.2 ownDB 20 1 none 1 0 99 _ _ rfl

-- ----------------- C7: return quantity cap -----------------

/-- One return-creation request as replayed against the service. -/
structure ReturnReq where
  order_item_id : OID
  qty : Int
  reason : Option String
  new_id : OID
deriving Repr, DecidableEq

/-- Total quantity of the requests in `reqs` that target order item `L` and
are *accepted* by `create_return_service` when the requests are processed in
order (each request runs against the store left by its predecessors). -/
def acceptedQtyFor (today : Int) (user_id : OID) (L : OID) : DB → List ReturnReq → Int
  | _, [] => 0
  | db, r :: rs =>
    let res := create_return_service db r.order_item_id r.qty r.reason user_id today r.new_id
    (if r.order_item_id = L ∧ exceptOk res.2 = true then r.qty else 0) +
      acceptedQtyFor today user_id L res.1 rs

theorem create_return_keeps_order_items {db : DB} {item : OID} {qty : Int}
    {reason : Option String} {uid : OID} {today : Int} {nid : OID} :
    ((create_return_service db item qty reason uid today nid).1).order_items =
      db.order_items := by
  rcases h : create_return_service db item qty reason uid today nid with ⟨db', res⟩
  cases res with
  | error e => rw [create_return_error h]
  | ok r =>
    obtain ⟨_, _, _, _, _, _, _, _, _, _, _, _, _, _, _, hdb⟩ := create_return_ok h
    rw [hdb]

/-- After any step of the service, the accounted sum for a pair never
decreases. -/
theorem create_return_monotone {db : DB} {item : OID} {qty : Int}
    {reason : Option String} {uid : OID} {today : Int} {nid : OID} (oid pid : OID) :
    already_returned_qty db.returns oid pid ≤
      already_returned_qty
        ((create_return_service db item qty reason uid today nid).1).returns oid pid := by
  rcases h : create_return_service db item qty reason uid today nid with ⟨db', res⟩
  cases res with
  | error e => rw [create_return_error h]
  | ok r =>
    obtain ⟨hq, _, _, _, _, _, _, _, _, _, _, _, _, _, hr, hdb⟩ := create_return_ok h
    rw [hdb]
    simp only
    rw [already_returned_qty_append_single]
    have : (0:Int) ≤ if r.order_id = oid ∧ r.product_id = pid then r.quantity else 0 := by
      split
      · rw [hr]; simpa using hq.le
      · exact le_refl 0
    omega

/-- Inductive invariant behind the return quantity cap: if the running total
`s` of quantities already granted against line `L` is below both the line's
ordered quantity and the pair's accounted sum, it stays below the ordered
quantity after any further sequence of requests. -/
theorem acceptedQtyFor_le_aux (today : Int) (uid L : OID) (oi : OrderItemRow) :
    ∀ (reqs : List ReturnReq) (db : DB) (s : Int),
      db.order_items.find? (fun x => x.id == L) = some oi →
      s ≤ oi.quantity →
      s ≤ already_returned_qty db.returns oi.order_id oi.product_id →
      s + acceptedQtyFor today uid L db reqs ≤ oi.quantity := by
  intro reqs
  induction reqs with
  | nil =>
    intro db s h1 h2 h3
    simpa [acceptedQtyFor] using h2
  | cons r rs ih =>
    intro db s h1 h2 h3
    rcases hres : create_return_service db r.order_item_id r.qty r.reason uid today r.new_id
      with ⟨db2, res⟩
    cases res with
    | error e =>
      have hdb2 : db2 = db := create_return_error hres
      have hstep := ih db s h1 h2 h3
      simp only [acceptedQtyFor, hres]
      rw [if_neg (fun hc => absurd hc.2 Bool.false_ne_true), hdb2]
      omega
    | ok rec =>
      obtain ⟨hq, oi', order, dd, prod, sid, hoi', hor, hu, hdd, hw, hqa, hprod, hst,
        hrec, hdb2⟩ := create_return_ok hres
      by_cases hitem : r.order_item_id = L
      · -- the request targets line L itself
        rw [hitem, h1] at hoi'
        injection hoi' with heq
        subst heq
        -- the guard gives r.qty ≤ oi.quantity - prior
        have hmax := le_max_right 0
          (oi.quantity - already_returned_qty db.returns oi.order_id oi.product_id)
        have hle : r.qty ≤
            oi.quantity - already_returned_qty db.returns oi.order_id oi.product_id := by
          rcases le_or_lt
            (oi.quantity - already_returned_qty db.returns oi.order_id oi.product_id) 0
            with hc | hc
          · rw [max_eq_left hc] at hqa; omega
          · rw [max_eq_right hc.le] at hqa; omega
        have hA2 : already_returned_qty db2.returns oi.order_id oi.product_id =
            already_returned_qty db.returns oi.order_id oi.product_id + r.qty := by
          rw [hdb2]
          simp only
          rw [already_returned_qty_append_single,
            if_pos ⟨by simp [hrec], by simp [hrec]⟩]
          simp [hrec]
        have hfind2 : db2.order_items.find? (fun x => x.id == L) = some oi := by
          rw [hdb2]; exact h1
        have hstep := ih db2 (s + r.qty) hfind2 (by omega) (by omega)
        simp only [acceptedQtyFor, hres]
        rw [if_pos ⟨hitem, rfl⟩]
        omega
      · -- the request targets a different line; the pair sum can only grow
        have hfind2 : db2.order_items.find? (fun x => x.id == L) = some oi := by
          rw [hdb2]; exact h1
        have hmono : already_returned_qty db.returns oi.order_id oi.product_id ≤
            already_returned_qty db2.returns oi.order_id oi.product_id := by
          rw [hdb2]
          simp only
          rw [already_returned_qty_append_single]
          have : (0:Int) ≤ if rec.order_id = oi.order_id ∧ rec.product_id = oi.product_id
              then rec.quantity else 0 := by
            split
            · rw [hrec]; simpa using hq.le
            · exact le_refl 0
          omega
        have hstep := ih db2 s hfind2 h2 (by omega)
        simp only [acceptedQtyFor, hres]
        rw [if_neg (fun hc => hitem hc.1)]
        omega

/-- C7: (i) once the earlier guards passed, a return-creation request is
rejected with the 400-class quantity error — whose message carries the exact
remaining-allowed count `max 0 (ordered - already_returned)` — exactly when
the requested quantity exceeds `ordered_quantity - already_returned`; (ii) for
every order line, the cumulative quantity granted across its accepted returns
never exceeds the line's ordered quantity, whatever sequence of requests is
replayed. -/
theorem return_quantity_cap :
    (∀ (db : DB) (item : OID) (qty : Int) (reason : Option String) (uid : OID)
        (today : Int) (nid : OID) (oi : OrderItemRow) (order : OrderDoc) (dd : Int),
      0 < qty →
      db.order_items.find? (fun x => x.id == item) = some oi →
      db.orders.find? (fun o => o.id == oi.order_id) = some order →
      order.user_id = uid →
      order.delivery_date = some dd →
      ensure_within_7_days_return dd today = .ok () →
      (((create_return_service db item qty reason uid today nid).2 =
          .error ⟨400, "Only " ++
            toString (max 0 (oi.quantity -
              already_returned_qty db.returns oi.order_id oi.product_id)) ++
            " items can be returned for this order item"⟩) ↔
        oi.quantity - already_returned_qty db.returns oi.order_id oi.product_id < qty)) ∧
    (∀ (today : Int) (uid L : OID) (oi : OrderItemRow) (db : DB) (reqs : List ReturnReq),
      db.order_items.find? (fun x => x.id == L) = some oi →
      0 ≤ oi.quantity →
      0 ≤ already_returned_qty db.returns oi.order_id oi.product_id →
      acceptedQtyFor today uid L db reqs ≤ oi.quantity) := by
  constructor
  · intro db item qty reason uid today nid oi order dd hq hoi hor hu hdd hw
    unfold create_return_service
    rw [if_neg (by omega)]
    simp only [hoi, hor, hdd, hw]
    rw [if_neg (by rw [hu]; exact fun h => h rfl)]
    set A := already_returned_qty db.returns oi.order_id oi.product_id with hA
    have hmax := le_max_right 0 (oi.quantity - A)
    by_cases hqa : qty > max 0 (oi.quantity - A)
    · rw [if_pos hqa]
      exact iff_of_true rfl (by omega)
    · rw [if_neg hqa]
      push_neg at hqa
      have hok : ¬ (oi.quantity - A < qty) := by
        rcases le_or_lt (oi.quantity - A) 0 with hc | hc
        · rw [max_eq_left hc] at hqa; omega
        · rw [max_eq_right hc.le] at hqa; omega
      refine iff_of_false ?_ hok
      cases hprod : db.products.find? (fun p => p.id == oi.product_id) with
      | none =>
        simp only [hprod]
        intro hc
        exact absurd (congrArg Err.status_code (Except.error.inj hc)) (by simp)
      | some prod =>
        simp only [hprod]
        cases hst : get_return_status_id db "approved" with
        | error e =>
          simp only [hst]
          intro hc
          have hce : e.status_code = 400 := congrArg Err.status_code (Except.error.inj hc)
          unfold get_return_status_id at hst
          cases hfind : db.return_status.find? (fun s => s.status == "approved") with
          | none =>
            rw [hfind] at hst
            have hse : e.status_code = 500 := by
              rw [← Except.error.inj hst]
            rw [hce] at hse
            exact absurd hse (by decide)
          | some d => rw [hfind] at hst; cases hst
        | ok sid =>
          simp only [hst]
          intro hc
          simp at hc
  · intro today uid L oi db reqs h1 h2 h3
    have := acceptedQtyFor_le_aux today uid L oi reqs db 0 h1 h2 h3
    omega

/-- Witness for `return_quantity_cap` on `ownDB`: requesting 2 of a line that
ordered 1 is rejected with the remaining-allowed count 1 in the message, and
replaying two quantity-1 requests against the line grants at most 1 in total. -/
theorem return_quantity_cap_witness :
    (create_return_service ownDB 20 2 none 1 0 99).2 =
      .error ⟨400, "Only 1 items can be returned for this order item"⟩ ∧
    acceptedQtyFor 0 1 20 ownDB [⟨20, 1, none, 98⟩, ⟨20, 1, none, 99⟩] ≤ 1 :=
  ⟨(return_quantity_cap.1 ownDB 20 2 none 1 0 99 ⟨20, 10, 30, 1, none, 1⟩
      ⟨10, 1, exSnap, 5, 0, some 0, none⟩ 0 (by decide) (by decide) (by decide)
      (by decide) (by decide) rfl).mpr (by decide),
    return_quantity_cap.2 0 1 20 ⟨20, 10, 30, 1, none, 1⟩ ownDB
      [⟨20, 1, none, 98⟩, ⟨20, 1, none, 99⟩] (by decide) (by decide) (by decide)⟩

-- ----------------- order status services -----------------

/-- `app/services/orders.py::_get_status_id` (lookup by slug). -/
def get_status_id (db : DB) (slug : String) : Except Err OID :=
  match db.order_status.find? (fun s => s.slug == slug) with
  | none => .error ⟨500, "Order status " ++ slug ++ " is not seeded"⟩
  | some d => .ok d.id

/-- `app/services/orders.py::update_my_order_status_service`: self-service
cancel.  One conditional update matching
`(order_id, owner, status ∈ {placed, confirmed, packed})` sets the status to
cancelled; on zero matches a follow-up read decides 404 / 403 / 409. -/
def update_my_order_status_service (db : DB) (order_id user_id : OID) :
    DB × Except Err OrderDoc :=
  match get_status_id db "placed", get_status_id db "confirmed",
        get_status_id db "packed", get_status_id db "cancelled" with
  | .ok pl, .ok cf, .ok pk, .ok cx =>
    match findOneAndUpdate
        (fun o => o.id == order_id && o.user_id == user_id &&
          (o.status_id == pl || o.status_id == cf || o.status_id == pk))
        (fun o => { o with status_id := cx }) db.orders with
    | some (orders2, d) => ({ db with orders := orders2 }, .ok d)
    | none =>
      match db.orders.find? (fun o => o.id == order_id) with
      | none => (db, .error ⟨404, "Order not found"⟩)
      | some o =>
        if o.user_id ≠ user_id then (db, .error ⟨403, "Forbidden"⟩)
        else (db, .error ⟨409, "Order cannot be cancelled at its current status"⟩)
  | .error e, _, _, _ => (db, .error e)
  | _, .error e, _, _ => (db, .error e)
  | _, _, .error e, _ => (db, .error e)
  | _, _, _, .error e => (db, .error e)

/-- Decimal digits of a natural number, most significant first (empty for 0). -/
def decDigits (n : Nat) : List Nat :=
  if h : n = 0 then [] else decDigits (n / 10) ++ [n % 10]
decreasing_by exact Nat.div_lt_self (Nat.pos_of_ne_zero h) (by norm_num)

/-- Python's `str` on a non-negative integer, as a character list. -/
def decChars (n : Nat) : List Char :=
  if n = 0 then ['0'] else (decDigits n).map (fun d => Char.ofNat (48 + d))

/-- Python's `str.zfill(n)` on a character list (non-negative input). -/
def zfillChars (n : Nat) (l : List Char) : List Char :=
  if n ≤ l.length then l else List.replicate (n - l.length) '0' ++ l

/-- `app/services/orders.py::_gen_otp`: `str(secrets.randbelow(10**n)).zfill(n)`.
The random draw is abstracted by the parameter `r`; `r % 10 ^ n` is the value
`randbelow` returns. -/
def gen_otp (n : Nat) (r : Nat) : String := String.mk (zfillChars n (decChars (r % 10 ^ n)))

/-- The spellings of the "out for delivery" status recognised by
`admin_update_order_service`. -/
def outForDeliveryNames : List String :=
  ["out for delivery", "out_for_delivery", "out-for-delivery"]

/-- The payload of `OrdersUpdate` (`app/schemas/orders.py`). -/
structure OrdersUpdate where
  delivery_date : Option Int := none
  status_id : Option OID := none
deriving Repr, DecidableEq

/-- The `$set` document built by `admin_update_order_service`: always
`status_id`, `delivery_date` only when the payload carries one, and the
`delivery_otp` side effect of the "out for delivery" / "delivered" statuses. -/
def adminApplyUpd (sdoc : OrderStatusDoc) (payload : OrdersUpdate) (r : Nat)
    (o : OrderDoc) : OrderDoc :=
  let o1 := { o with status_id := sdoc.id }
  let o2 := match payload.delivery_date with
            | some d => { o1 with delivery_date := some d }
            | none => o1
  let sname := pyLower (pyStrip sdoc.status)
  if outForDeliveryNames.contains sname = true then
    { o2 with delivery_otp := some (gen_otp 6 r) }
  else if sname = "delivered" then { o2 with delivery_otp := none }
  else o2

/-- `app/services/orders.py::admin_update_order_service`: set `status_id`
(and optionally `delivery_date`); entering "out for delivery" stores a fresh
OTP, entering "delivered" clears it, any other status leaves it alone. -/
def admin_update_order_service (db : DB) (order_id : OID) (payload : OrdersUpdate)
    (r : Nat) : DB × Except Err OrderDoc :=
  match payload.status_id with
  | none => (db, .error ⟨400, "status_id is required"⟩)
  | some sid =>
    match db.order_status.find? (fun s => s.id == sid) with
    | none => (db, .error ⟨400, "Unknown order status"⟩)
    | some sdoc =>
      match findOneAndUpdate (fun o => o.id == order_id) (adminApplyUpd sdoc payload r)
          db.orders with
      | none => (db, .error ⟨404, "Order not found"⟩)
      | some (orders2, d) => ({ db with orders := orders2 }, .ok d)

-- ----------------- findOneAndUpdate lemmas -----------------

theorem findOneAndUpdate_isSome {p : α → Bool} {f : α → α} :
    ∀ {l : List α}, (findOneAndUpdate p f l).isSome = true ↔ ∃ x ∈ l, p x = true := by
  intro l
  induction l with
  | nil => simp [findOneAndUpdate]
  | cons x xs ih =>
    unfold findOneAndUpdate
    by_cases hp : p x
    · simp [hp]
    · rw [if_neg hp]
      cases hrec : findOneAndUpdate p f xs with
      | none =>
        rw [hrec] at ih
        simp only [Option.isSome_none, Bool.false_eq_true, false_iff] at ih ⊢
        push_neg at ih ⊢
        intro y hy
        rcases List.mem_cons.mp hy with rfl | hy2
        · simpa using hp
        · exact ih y hy2
      | some v =>
        rw [hrec] at ih
        simp only [Option.isSome_some, true_iff] at ih
        obtain ⟨y, hy, hpy⟩ := ih
        simp only [Option.isSome_some, true_iff]
        exact ⟨y, List.mem_cons_of_mem x hy, hpy⟩

theorem findOneAndUpdate_decomp {p : α → Bool} {f : α → α} :
    ∀ {l l' : List α} {d : α}, findOneAndUpdate p f l = some (l', d) →
      ∃ pre x post, l = pre ++ x :: post ∧ (∀ y ∈ pre, ¬ p y = true) ∧ p x = true ∧
        d = f x ∧ l' = pre ++ f x :: post := by
  intro l
  induction l with
  | nil => intro l' d h; simp [findOneAndUpdate] at h
  | cons x xs ih =>
    intro l' d h
    unfold findOneAndUpdate at h
    by_cases hp : p x
    · rw [if_pos hp] at h
      simp only [Option.some.injEq, Prod.mk.injEq] at h
      exact ⟨[], x, xs, by simp, by simp, hp, h.2.symm, by simp [h.1]⟩
    · rw [if_neg hp] at h
      cases hrec : findOneAndUpdate p f xs with
      | none => rw [hrec] at h; simp at h
      | some v =>
        obtain ⟨xs', d'⟩ := v
        rw [hrec] at h
        simp only [Option.some.injEq, Prod.mk.injEq] at h
        obtain ⟨h1, h2⟩ := h
        obtain ⟨pre, y, post, hl, hpre, hpy, hd, hl'⟩ := ih hrec
        refine ⟨x :: pre, y, post, by simp [hl], ?_, hpy, h2 ▸ hd, by simp [← h1, hl']⟩
        intro z hz
        rcases List.mem_cons.mp hz with rfl | hz2
        · exact hp
        · exact hpre z hz2

theorem findOneAndUpdate_eq_none {p : α → Bool} {f : α → α} :
    ∀ {l : List α}, findOneAndUpdate p f l = none ↔ ∀ x ∈ l, ¬ p x = true := by
  intro l
  constructor
  · intro h x hx hpx
    have : (findOneAndUpdate p f l).isSome = true := findOneAndUpdate_isSome.mpr ⟨x, hx, hpx⟩
    rw [h] at this
    simp at this
  · intro h
    cases hfu : findOneAndUpdate p f l with
    | none => rfl
    | some v =>
      have : (findOneAndUpdate p f l).isSome = true := by rw [hfu]; rfl
      obtain ⟨x, hx, hpx⟩ := findOneAndUpdate_isSome.mp this
      exact absurd hpx (h x hx)

theorem findOneAndUpdate_of_find? {p : α → Bool} {f : α → α} :
    ∀ {l : List α} {x : α}, l.find? p = some x →
      ∃ l', findOneAndUpdate p f l = some (l', f x) := by
  intro l
  induction l with
  | nil => intro x h; simp at h
  | cons y ys ih =>
    intro x h
    by_cases hp : p y
    · rw [List.find?_cons_of_pos _ hp] at h
      injection h with h
      subst h
      exact ⟨f y :: ys, by unfold findOneAndUpdate; rw [if_pos hp]⟩
    · rw [List.find?_cons_of_neg _ hp] at h
      obtain ⟨l', hl'⟩ := ih h
      exact ⟨y :: l', by unfold findOneAndUpdate; rw [if_neg hp, hl']⟩

theorem find?_append_none {p : α → Bool} {l₁ l₂ : List α} (h : l₁.find? p = none) :
    (l₁ ++ l₂).find? p = l₂.find? p := by
  induction l₁ with
  | nil => simp
  | cons x xs ih =>
    rw [List.find?_eq_none] at h
    have hx : ¬ p x = true := h x (by simp)
    rw [List.cons_append, List.find?_cons_of_neg _ hx]
    exact ih (List.find?_eq_none.mpr (fun y hy => h y (by simp [hy])))

-- ----------------- decimal / OTP lemmas -----------------

theorem decDigits_zero : decDigits 0 = [] := by unfold decDigits; simp

theorem decDigits_pos (n : Nat) (h : n ≠ 0) :
    decDigits n = decDigits (n / 10) ++ [n % 10] := by
  rw [decDigits]
  simp [h]

theorem decDigits_length_le : ∀ (k n : Nat), n < 10 ^ k → (decDigits n).length ≤ k := by
  intro k
  induction k with
  | zero =>
    intro n h
    simp only [pow_zero, Nat.lt_one_iff] at h
    simp [h, decDigits_zero]
  | succ k ih =>
    intro n h
    by_cases hn : n = 0
    · simp [hn, decDigits_zero]
    · rw [decDigits_pos n hn, List.length_append]
      have hdiv : n / 10 < 10 ^ k := by
        rw [Nat.div_lt_iff_lt_mul (by norm_num : 0 < 10)]
        calc n < 10 ^ (k + 1) := h
          _ = 10 ^ k * 10 := by ring
      have := ih _ hdiv
      simp only [List.length_cons, List.length_nil]
      omega

theorem decDigits_lt_ten : ∀ (n : Nat), ∀ d ∈ decDigits n, d < 10 := by
  intro n
  induction n using Nat.strong_induction_on with
  | _ n ih =>
    by_cases hn : n = 0
    · simp [hn, decDigits_zero]
    · rw [decDigits_pos n hn]
      intro d hd
      rcases List.mem_append.mp hd with h1 | h2
      · exact ih (n / 10) (Nat.div_lt_self (Nat.pos_of_ne_zero hn) (by norm_num)) d h1
      · simp only [List.mem_singleton] at h2
        subst h2
        exact Nat.mod_lt _ (by norm_num)

theorem decChars_length_le (k n : Nat) (hk : 1 ≤ k) (h : n < 10 ^ k) :
    (decChars n).length ≤ k := by
  unfold decChars
  split
  · simpa using hk
  · rw [List.length_map]
    exact decDigits_length_le k n h

theorem decChars_isDigit (n : Nat) : ∀ c ∈ decChars n, c.isDigit = true := by
  unfold decChars
  split
  · intro c hc
    simp only [List.mem_singleton] at hc
    subst hc
    decide
  · intro c hc
    rw [List.mem_map] at hc
    obtain ⟨d, hd, rfl⟩ := hc
    have hd10 := decDigits_lt_ten n d hd
    interval_cases d <;> decide

theorem zfillChars_length (n : Nat) (l : List Char) (h : l.length ≤ n) :
    (zfillChars n l).length = n := by
  unfold zfillChars
  split
  · omega
  · rw [List.length_append, List.length_replicate]
    omega

theorem zfillChars_isDigit (n : Nat) (l : List Char) (h : ∀ c ∈ l, c.isDigit = true) :
    ∀ c ∈ zfillChars n l, c.isDigit = true := by
  unfold zfillChars
  split
  · exact h
  · intro c hc
    rcases List.mem_append.mp hc with h1 | h2
    · rw [List.eq_of_mem_replicate h1]; decide
    · exact h c h2

/-- The generated OTP is a 6-character string. -/
theorem gen_otp6_length (r : Nat) : (gen_otp 6 r).toList.length = 6 := by
  show (zfillChars 6 (decChars (r % 10 ^ 6))).length = 6
  exact zfillChars_length 6 _
    (decChars_length_le 6 _ (by norm_num) (Nat.mod_lt _ (by norm_num)))

/-- Every character of the generated OTP is a decimal digit. -/
theorem gen_otp6_digits (r : Nat) : ∀ c ∈ (gen_otp 6 r).toList, c.isDigit = true := by
  intro c hc
  exact zfillChars_isDigit 6 _ (decChars_isDigit _) c hc

-- ----------------- C5: OTP lifecycle for admin status updates -----------------

/-- C5: for every existing order, an admin transition to the "out for
delivery" status stores a freshly generated 6-digit, zero-padded numeric OTP
(the decimal rendering of a value below 10^6); a transition to "delivered"
sets the stored OTP to null; a transition to any other status leaves the
stored OTP unchanged. -/
theorem admin_otp_lifecycle
    (db : DB) (order_id : OID) (payload : OrdersUpdate) (r : Nat)
    (sid : OID) (sdoc : OrderStatusDoc) (o : OrderDoc)
    (hsid : payload.status_id = some sid)
    (hsdoc : db.order_status.find? (fun s => s.id == sid) = some sdoc)
    (ho : db.orders.find? (fun x => x.id == order_id) = some o) :
    ∃ d : OrderDoc,
      (admin_update_order_service db order_id payload r).2 = .ok d ∧
      (outForDeliveryNames.contains (pyLower (pyStrip sdoc.status)) = true →
        d.delivery_otp = some (gen_otp 6 r) ∧
        (gen_otp 6 r).toList.length = 6 ∧
        (∀ c ∈ (gen_otp 6 r).toList, c.isDigit = true) ∧
        ∃ k, k < 10 ^ 6 ∧ gen_otp 6 r = String.mk (zfillChars 6 (decChars k))) ∧
      (pyLower (pyStrip sdoc.status) = "delivered" → d.delivery_otp = none) ∧
      (outForDeliveryNames.contains (pyLower (pyStrip sdoc.status)) = false →
        pyLower (pyStrip sdoc.status) ≠ "delivered" →
        d.delivery_otp = o.delivery_otp) := by
  unfold admin_update_order_service
  simp only [hsid, hsdoc]
  obtain ⟨l', hfu⟩ := findOneAndUpdate_of_find? (f := adminApplyUpd sdoc payload r) ho
  simp only [hfu]
  refine ⟨_, rfl, ?_, ?_, ?_⟩
  · intro hc
    unfold adminApplyUpd
    rw [if_pos hc]
    exact ⟨rfl, gen_otp6_length r, gen_otp6_digits r,
      r % 10 ^ 6, Nat.mod_lt _ (by norm_num), rfl⟩
  · intro hdel
    have hc : outForDeliveryNames.contains (pyLower (pyStrip sdoc.status)) = false := by
      rw [hdel]; decide
    unfold adminApplyUpd
    rw [if_neg (by simpa using hc), if_pos hdel]
  · intro hc hnd
    unfold adminApplyUpd
    rw [if_neg (by simpa using hc), if_neg hnd]
    cases payload.delivery_date <;> rfl

/-- Concrete store for exercising the admin status update: order 10 currently
carries an OTP; status 40 renders (after strip/lower) as "out for delivery". -/
def otpDB : DB :=
  { products := []
    user_address := []
    payment_types := []
    payment_status := []
    order_status := [⟨40, " Out For Delivery ", "out_for_delivery"⟩, ⟨41, "Delivered", "delivered"⟩,
                     ⟨42, "Packed", "packed"⟩]
    carts := []
    cart_items := []
    orders := [⟨10, 1, exSnap, 5, 0, some 0, some "111111"⟩]
    order_items := []
    payments := []
    card_details := []
    upi_details := []
    return_status := []
    exchange_status := []
    returns := []
    exchanges := [] }

/-- Witness for `admin_otp_lifecycle`: moving order 10 of `otpDB` to status 40
("Out For Delivery") stores the freshly generated OTP. -/
theorem admin_otp_lifecycle_witness :
    ∃ d : OrderDoc,
      (admin_update_order_service otpDB 10 ⟨none, some 40⟩ 123456).2 = .ok d ∧
      d.delivery_otp = some (gen_otp 6 123456) := by
  obtain ⟨d, h1, h2, -, -⟩ := admin_otp_lifecycle otpDB 10 ⟨none, some 40⟩ 123456 40
    ⟨40, " Out For Delivery ", "out_for_delivery"⟩ ⟨10, 1, exSnap, 5, 0, some 0, some "111111"⟩
    rfl (by decide) (by decide)
  exact ⟨d, h1, (h2 (by decide)).1⟩

-- ----------------- C4: self-service cancel -----------------

theorem ite_error_ne_ok {c : Prop} [Decidable c] {β : Type _} (a₁ a₂ : DB) (e₁ e₂ : Err)
    (d : β) (h : (if c then (a₁, (.error e₁ : Except Err β)) else (a₂, .error e₂)).2 = .ok d) :
    False := by
  split at h <;> exact Except.noConfusion h

/-- C4: self-service cancel sets the order's status to `cancelled` exactly
when the order exists, is owned by the caller, and its status is one of
{placed, confirmed, packed}; on a zero-match conditional update the error is
404 NotFound (no such order), else 403 Forbidden (wrong owner), else 409
InvalidTransition (ineligible status, e.g. delivered or cancelled) — in that
precedence; and a second cancel of a just-cancelled order fails with 409, so
cancel succeeds exactly once. -/
theorem self_service_cancel_spec
    (db : DB) (order_id user_id : OID) (pl cf pk cx : OID)
    (hpl : get_status_id db "placed" = .ok pl)
    (hcf : get_status_id db "confirmed" = .ok cf)
    (hpk : get_status_id db "packed" = .ok pk)
    (hcx : get_status_id db "cancelled" = .ok cx)
    (hnodup : (db.orders.map OrderDoc.id).Nodup)
    (hdist : cx ≠ pl ∧ cx ≠ cf ∧ cx ≠ pk) :
    ((∃ d, (update_my_order_status_service db order_id user_id).2 = .ok d) ↔
      ∃ o ∈ db.orders, o.id = order_id ∧ o.user_id = user_id ∧
        (o.status_id = pl ∨ o.status_id = cf ∨ o.status_id = pk)) ∧
    (∀ d, (update_my_order_status_service db order_id user_id).2 = .ok d →
      d.status_id = cx ∧ d.id = order_id ∧ d.user_id = user_id) ∧
    (db.orders.find? (fun o => o.id == order_id) = none →
      (update_my_order_status_service db order_id user_id).2 =
        .error ⟨404, "Order not found"⟩) ∧
    (∀ o, db.orders.find? (fun o => o.id == order_id) = some o → o.user_id ≠ user_id →
      (update_my_order_status_service db order_id user_id).2 =
        .error ⟨403, "Forbidden"⟩) ∧
    (∀ o, db.orders.find? (fun o => o.id == order_id) = some o → o.user_id = user_id →
      o.status_id ≠ pl → o.status_id ≠ cf → o.status_id ≠ pk →
      (update_my_order_status_service db order_id user_id).2 =
        .error ⟨409, "Order cannot be cancelled at its current status"⟩) ∧
    (∀ d, (update_my_order_status_service db order_id user_id).2 = .ok d →
      (update_my_order_status_service
        (update_my_order_status_service db order_id user_id).1 order_id user_id).2 =
        .error ⟨409, "Order cannot be cancelled at its current status"⟩) := by
  have hP : ∀ o : OrderDoc,
      ((o.id == order_id && o.user_id == user_id &&
        (o.status_id == pl || o.status_id == cf || o.status_id == pk)) = true) ↔
      (o.id = order_id ∧ o.user_id = user_id ∧
        (o.status_id = pl ∨ o.status_id = cf ∨ o.status_id = pk)) := by
    intro o
    simp [and_assoc, or_assoc]
  refine ⟨?_, ?_, ?_, ?_, ?_, ?_⟩
  · -- success iff a matching order exists
    simp only [update_my_order_status_service, hpl, hcf, hpk, hcx]
    cases hfu : findOneAndUpdate
        (fun o => o.id == order_id && o.user_id == user_id &&
          (o.status_id == pl || o.status_id == cf || o.status_id == pk))
        (fun o => { o with status_id := cx }) db.orders with
    | some v =>
      obtain ⟨l', d⟩ := v
      simp only
      obtain ⟨pre, x, post, hl, hpre, hpx, hd, hl'⟩ := findOneAndUpdate_decomp hfu
      constructor
      · intro _
        exact ⟨x, by rw [hl]; simp, (hP x).mp hpx⟩
      · intro _
        exact ⟨d, rfl⟩
    | none =>
      have hnone := findOneAndUpdate_eq_none.mp hfu
      constructor
      · intro ⟨d, hd⟩
        exfalso
        cases hfind : db.orders.find? (fun o => o.id == order_id) with
        | none =>
          simp only [hfind] at hd
          exact Except.noConfusion hd
        | some o =>
          simp only [hfind] at hd
          exact ite_error_ne_ok db db _ _ d hd
      · intro ⟨o, ho, h1, h2, h3⟩
        exact absurd ((hP o).mpr ⟨h1, h2, h3⟩) (hnone o ho)
  · -- a successful cancel returns the cancelled document
    intro d
    simp only [update_my_order_status_service, hpl, hcf, hpk, hcx]
    cases hfu : findOneAndUpdate
        (fun o => o.id == order_id && o.user_id == user_id &&
          (o.status_id == pl || o.status_id == cf || o.status_id == pk))
        (fun o => { o with status_id := cx }) db.orders with
    | some v =>
      obtain ⟨l', d'⟩ := v
      simp only [Except.ok.injEq]
      intro hd
      subst hd
      obtain ⟨pre, x, post, hl, hpre, hpx, hd', hl'⟩ := findOneAndUpdate_decomp hfu
      obtain ⟨h1, h2, -⟩ := (hP x).mp hpx
      rw [hd']
      exact ⟨rfl, h1, h2⟩
    | none =>
      cases hfind : db.orders.find? (fun o => o.id == order_id) with
      | none =>
        intro hd
        exact Except.noConfusion hd
      | some o =>
        intro hd
        exact (ite_error_ne_ok db db _ _ d hd).elim
  · -- no order with that id: 404
    intro hfind
    have hnone : findOneAndUpdate
        (fun o => o.id == order_id && o.user_id == user_id &&
          (o.status_id == pl || o.status_id == cf || o.status_id == pk))
        (fun o => { o with status_id := cx }) db.orders = none := by
      rw [findOneAndUpdate_eq_none]
      intro x hx hpx
      obtain ⟨h1, -, -⟩ := (hP x).mp hpx
      have := List.find?_eq_none.mp hfind x hx
      simp [h1] at this
    simp only [update_my_order_status_service, hpl, hcf, hpk, hcx, hnone, hfind]
  · -- order exists but is not owned by the caller: 403
    intro o hfind hu
    have hmem := List.mem_of_find?_eq_some hfind
    have hido : o.id = order_id := by simpa using List.find?_some hfind
    have hnone : findOneAndUpdate
        (fun o => o.id == order_id && o.user_id == user_id &&
          (o.status_id == pl || o.status_id == cf || o.status_id == pk))
        (fun o => { o with status_id := cx }) db.orders = none := by
      rw [findOneAndUpdate_eq_none]
      intro x hx hpx
      obtain ⟨h1, h2, -⟩ := (hP x).mp hpx
      have hxo : x = o :=
        List.inj_on_of_nodup_map hnodup hx hmem (by rw [h1, hido])
      rw [hxo] at h2
      exact hu h2
    simp only [update_my_order_status_service, hpl, hcf, hpk, hcx, hnone, hfind]
    rw [if_pos hu]
  · -- order exists, owned, but status ineligible: 409
    intro o hfind hu h1 h2 h3
    have hmem := List.mem_of_find?_eq_some hfind
    have hido : o.id = order_id := by simpa using List.find?_some hfind
    have hnone : findOneAndUpdate
        (fun o => o.id == order_id && o.user_id == user_id &&
          (o.status_id == pl || o.status_id == cf || o.status_id == pk))
        (fun o => { o with status_id := cx }) db.orders = none := by
      rw [findOneAndUpdate_eq_none]
      intro x hx hpx
      obtain ⟨hx1, -, hx3⟩ := (hP x).mp hpx
      have hxo : x = o :=
        List.inj_on_of_nodup_map hnodup hx hmem (by rw [hx1, hido])
      rw [hxo] at hx3
      rcases hx3 with h | h | h
      · exact h1 h
      · exact h2 h
      · exact h3 h
    simp only [update_my_order_status_service, hpl, hcf, hpk, hcx, hnone, hfind]
    rw [if_neg (by simp [hu])]
  · -- a second cancel of the same order fails with 409
    intro d
    simp only [update_my_order_status_service, hpl, hcf, hpk, hcx]
    cases hfu : findOneAndUpdate
        (fun o => o.id == order_id && o.user_id == user_id &&
          (o.status_id == pl || o.status_id == cf || o.status_id == pk))
        (fun o => { o with status_id := cx }) db.orders with
    | none =>
      cases hfind : db.orders.find? (fun o => o.id == order_id) with
      | none =>
        intro hd
        exact Except.noConfusion hd
      | some o =>
        intro hd
        exact (ite_error_ne_ok db db _ _ d hd).elim
    | some v =>
      obtain ⟨l', d'⟩ := v
      simp only
      intro _
      obtain ⟨pre, x, post, hl, hpre, hpx, hd', hl'⟩ := findOneAndUpdate_decomp hfu
      obtain ⟨hx1, hx2, -⟩ := (hP x).mp hpx
      -- ids of pre/post differ from order_id
      have hnd2 : ((pre ++ x :: post).map OrderDoc.id).Nodup := by rw [← hl]; exact hnodup
      rw [List.map_append, List.map_cons] at hnd2
      rw [List.nodup_append] at hnd2
      obtain ⟨-, hnd3, hdisj⟩ := hnd2
      rw [List.nodup_cons] at hnd3
      obtain ⟨hxpost, -⟩ := hnd3
      have hprene : ∀ y ∈ pre, y.id ≠ order_id := by
        intro y hy hc
        exact hdisj (List.mem_map_of_mem OrderDoc.id hy)
          (by rw [hc, ← hx1]; exact List.mem_cons_self _ _)
      have hpostne : ∀ y ∈ post, y.id ≠ order_id := by
        intro y hy hc
        exact hxpost (by rw [hx1, ← hc]; exact List.mem_map_of_mem OrderDoc.id hy)
      -- the stored lookups are unchanged (only `orders` differs)
      have hpl2 : get_status_id { db with orders := l' } "placed" = .ok pl := hpl
      have hcf2 : get_status_id { db with orders := l' } "confirmed" = .ok cf := hcf
      have hpk2 : get_status_id { db with orders := l' } "packed" = .ok pk := hpk
      have hcx2 : get_status_id { db with orders := l' } "cancelled" = .ok cx := hcx
      simp only [update_my_order_status_service, hpl2, hcf2, hpk2, hcx2]
      have hnone2 : findOneAndUpdate
          (fun o => o.id == order_id && o.user_id == user_id &&
            (o.status_id == pl || o.status_id == cf || o.status_id == pk))
          (fun o => { o with status_id := cx }) l' = none := by
        rw [findOneAndUpdate_eq_none]
        intro y hy hpy
        obtain ⟨hy1, -, hy3⟩ := (hP y).mp hpy
        rw [hl'] at hy
        rcases List.mem_append.mp hy with hy | hy
        · exact hprene y hy hy1
        · rcases List.mem_cons.mp hy with rfl | hy
          · rcases hy3 with h | h | h
            · exact hdist.1 h
            · exact hdist.2.1 h
            · exact hdist.2.2 h
          · exact hpostne y hy hy1
      simp only [hnone2]
      have hfind2 : l'.find? (fun o => o.id == order_id) = some { x with status_id := cx } := by
        rw [hl']
        rw [find?_append_none (List.find?_eq_none.mpr (fun y hy => by simp [hprene y hy]))]
        exact List.find?_cons_of_pos _ (by simp [hx1])
      simp only [hfind2]
      rw [if_neg (by simp [hx2])]

/-- Concrete store for the cancel scenarios: order 10 (owner 1) is in status
"confirmed"; the four status slugs are seeded as ids 1..4. -/
def cancelDB : DB :=
  { products := []
    user_address := []
    payment_types := []
    payment_status := []
    order_status := [⟨1, "Placed", "placed"⟩, ⟨2, "Confirmed", "confirmed"⟩,
                     ⟨3, "Packed", "packed"⟩, ⟨4, "Cancelled", "cancelled"⟩,
                     ⟨5, "Delivered", "delivered"⟩]
    carts := []
    cart_items := []
    orders := [⟨10, 1, exSnap, 2, 0, some 0, none⟩]
    order_items := []
    payments := []
    card_details := []
    upi_details := []
    return_status := []
    exchange_status := []
    returns := []
    exchanges := [] }

/-- Witness for `self_service_cancel_spec`: user 1 can cancel their confirmed
order 10 in `cancelDB`. -/
theorem self_service_cancel_spec_witness :
    ∃ d, (update_my_order_status_service cancelDB 10 1).2 = .ok d :=
  (self_service_cancel_spec cancelDB 10 1 1 2 3 4 rfl rfl rfl rfl
      (by decide) (by decide)).1.mpr
    ⟨⟨10, 1, exSnap, 2, 0, some 0, none⟩, by decide, rfl, rfl, Or.inr (Or.inl rfl)⟩

-- ----------------- order placement: validation helpers -----------------

/-- `app/services/orders.py::_require_card_details`. -/
def require_card_details (card_name card_no : Option String) :
    Except Err (String × String) :=
  match card_name with
  | none => .error ⟨400, "card_name is required for CARD payments"⟩
  | some nm =>
    if pyStrip nm = "" then .error ⟨400, "card_name is required for CARD payments"⟩
    else
      match card_no with
      | none => .error ⟨400, "card_no is required for CARD payments"⟩
      | some no =>
        if pyStrip no = "" then .error ⟨400, "card_no is required for CARD payments"⟩
        else
          let num := removeSpaces no
          if ¬(12 ≤ num.length ∧ num.length ≤ 19) ∨ ¬(num.toList.all Char.isDigit = true) then
            .error ⟨400, "Invalid card_no (must be 12-19 digits)"⟩
          else .ok (pyStrip nm, num)

/-- A character allowed in the local part of `_UPI_RE`
(`[a-zA-Z0-9.\-_]`). -/
def upiLocalChar (c : Char) : Bool :=
  c.isAlpha || c.isDigit || c = '.' || c = '-' || c = '_'

/-- `_UPI_RE.fullmatch`: `^[a-zA-Z0-9.\-_]{2,}@[a-zA-Z]{2,}$`.  The first `@`
splits local part and bank; neither charset admits `@`, so this is the full
regex semantics. -/
def upiMatch (s : String) : Bool :=
  match s.toList.dropWhile (fun c => c ≠ '@') with
  | '@' :: bank =>
    let l := s.toList.takeWhile (fun c => c ≠ '@')
    2 ≤ l.length && l.all upiLocalChar && 2 ≤ bank.length && bank.all Char.isAlpha
  | _ => false

/-- `app/services/orders.py::_require_upi_details`. -/
def require_upi_details (upi_id : Option String) : Except Err String :=
  match upi_id with
  | none => .error ⟨400, "upi_id is required for UPI payments"⟩
  | some u =>
    if pyStrip u = "" then .error ⟨400, "upi_id is required for UPI payments"⟩
    else if upiMatch (pyStrip u) then .ok (pyStrip u)
    else .error ⟨400, "Invalid UPI format (expected something@bank)"⟩

-- ----------------- order placement: stock ledger -----------------

/-- The conditional decrement
`find_one_and_update({_id: pid, quantity: {$gte: qty}}, {$inc: {quantity: -qty}}, AFTER)`:
the first document matching *both* conditions is decremented and returned. -/
def decrementFirst : List Product → OID → Int → Option (List Product × Product)
  | [], _, _ => none
  | p :: ps, pid, qty =>
    if p.id = pid ∧ qty ≤ p.quantity then
      some ({ p with quantity := p.quantity - qty } :: ps,
        { p with quantity := p.quantity - qty })
    else
      match decrementFirst ps pid qty with
      | some (ps', a) => some (p :: ps', a)
      | none => none

/-- `update_one({_id: pid, out_of_stock: {$ne: true}}, {$set: {out_of_stock: true}})`. -/
def setOutOfStockFirst : List Product → OID → List Product
  | [], _ => []
  | p :: ps, pid =>
    if p.id = pid ∧ p.out_of_stock ≠ true then { p with out_of_stock := true } :: ps
    else p :: setOutOfStockFirst ps pid

/-- One iteration of the stock loop of `place_order_service` (lines 159-181):
conditional decrement, the guarded out-of-stock flag flip when the post-
decrement quantity is exactly zero, and the billing price taken from the
AFTER document (`total_price`, else `price`, else 0). -/
def reserveLine (ps : List Product) (pid : OID) (qty : Int) :
    Option (List Product × ℚ) :=
  match decrementFirst ps pid qty with
  | none => none
  | some (ps', a) =>
    let ps'' := if a.quantity = 0 ∧ a.out_of_stock = false then setOutOfStockFirst ps' pid
                else ps'
    some (ps'', priceOf a)

/-- The 400 error raised when the conditional decrement matches nothing. -/
def insufficientStockErr : Err := ⟨400, "Insufficient stock for a product in your cart"⟩

/-- The whole stock loop: reserve every cart line in order, accumulating
`price * qty` into the running order total. -/
def reserveAll : List Product → List CartItem → ℚ → Except Err (List Product × ℚ)
  | ps, [], acc => .ok (ps, acc)
  | ps, it :: its, acc =>
    match reserveLine ps it.product_id it.quantity with
    | none => .error insufficientStockErr
    | some (ps', price) => reserveAll ps' its (acc + price * (it.quantity : ℚ))

-- ----------------- order placement: the service -----------------

/-- Everything `place_order_service` resolves and validates *before* opening
the MongoDB session (lines 113-150). -/
structure PlaceCtx where
  user_id : OID
  snap : AddrSnap
  ptype : String
  payment_type_id : OID
  payment_status_id : OID
  cart : Cart
  items : List CartItem
  confirmed_id : OID
  card_name_v : Option String
  card_no_v : Option String
  upi_id_v : Option String
deriving Repr, DecidableEq

/-- The pre-transaction phase of `place_order_service`: address ownership,
payment-type resolution, payment-status lookup, cart load, "confirmed" status
lookup, and card/UPI validation — all reads, no writes. -/
def place_order_pre (db : DB) (address_id payment_type_id : OID)
    (card_name card_no upi_id : Option String) (user_id : OID) :
    Except Err PlaceCtx :=
  match db.user_address.find? (fun a => a.id == address_id && a.user_id == user_id) with
  | none => .error ⟨404, "Address not found"⟩
  | some addr =>
    match db.payment_types.find? (fun t => t.id == payment_type_id) with
    | none => .error ⟨400, "Unknown payment type"⟩
    | some pt =>
      let ptype := pyLower (pyStrip pt.type)
      if ptype = "cod" ∨ ptype = "card" ∨ ptype = "upi" then
        match db.payment_status.find?
            (fun s => s.status == (if ptype = "cod" then "pending" else "success")) with
        | none => .error ⟨500, "Payment status not found"⟩
        | some psdoc =>
          match db.carts.find? (fun c => c.user_id == user_id) with
          | none => .error ⟨404, "Cart not found"⟩
          | some cart =>
            let items := db.cart_items.filter (fun ci => ci.cart_id == cart.id)
            if items.isEmpty then .error ⟨400, "Cart is empty"⟩
            else
              match db.order_status.find? (fun s => s.status == "confirmed") with
              | none => .error ⟨500, "Order status placed not found"⟩
              | some osd =>
                if ptype = "card" then
                  match require_card_details card_name card_no with
                  | .error e => .error e
                  | .ok (nm, no) =>
                    .ok ⟨user_id, addr.snap, ptype, payment_type_id, psdoc.id, cart,
                          items, osd.id, some nm, some no, none⟩
                else if ptype = "upi" then
                  match require_upi_details upi_id with
                  | .error e => .error e
                  | .ok u =>
                    .ok ⟨user_id, addr.snap, ptype, payment_type_id, psdoc.id, cart,
                          items, osd.id, none, none, some u⟩
                else
                  .ok ⟨user_id, addr.snap, ptype, payment_type_id, psdoc.id, cart,
                        items, osd.id, none, none, none⟩
      else .error ⟨400, "Unsupported payment type"⟩

/-- Failure oracle for the write operations inside the transaction: `true`
means that operation raises (and hence the transaction aborts). -/
structure FailSpec where
  insert_order : Bool := false
  insert_order_items : Bool := false
  insert_payment : Bool := false
  insert_card_details : Bool := false
  insert_upi_details : Bool := false
  delete_cart_items : Bool := false
deriving Repr, DecidableEq

/-- The 500 error the service raises when a write inside the transaction (or
the pydantic validation of the order payload) fails. -/
def txnFailErr : Err := ⟨500, "Failed to place order"⟩

/-- The order document inserted by the transaction: auto-confirmed status,
delivery date = placement date + 3 days, no OTP, total already rounded. -/
def placedOrder (ctx : PlaceCtx) (today : Int) (new_order_id : OID) (total : ℚ) :
    OrderDoc :=
  { id := new_order_id, user_id := ctx.user_id, address := ctx.snap,
    status_id := ctx.confirmed_id, total := total,
    delivery_date := some (today + 3), delivery_otp := none }

/-- The order items bulk-inserted from the cart items (1:1). -/
def placedOrderItems (ctx : PlaceCtx) (new_order_id new_item_id : OID) :
    List OrderItemRow :=
  ctx.items.enum.map (fun p =>
    { id := new_item_id + p.1, order_id := new_order_id, product_id := p.2.product_id,
      quantity := p.2.quantity, size := p.2.size, user_id := ctx.user_id })

/-- The single payment row created for the order. -/
def placedPayment (ctx : PlaceCtx) (new_order_id new_payment_id : OID) (total : ℚ) :
    PaymentRow :=
  { id := new_payment_id, user_id := ctx.user_id, order_id := new_order_id,
    payment_types_id := ctx.payment_type_id, payment_status_id := ctx.payment_status_id,
    invoice_no := "INV-" ++ toString new_order_id, delivery_fee := 30, amount := total }

/-- The committed store after a successful placement transaction. -/
def placedDB (db : DB) (ctx : PlaceCtx) (prods : List Product) (today : Int)
    (new_order_id new_payment_id new_item_id : OID) (encrypt : String → String)
    (total : ℚ) : DB :=
  { db with
    products := prods
    orders := db.orders ++ [placedOrder ctx today new_order_id total]
    order_items := db.order_items ++ placedOrderItems ctx new_order_id new_item_id
    payments := db.payments ++ [placedPayment ctx new_order_id new_payment_id total]
    card_details :=
      if ctx.ptype = "card" then
        db.card_details ++
          [⟨new_payment_id, ctx.card_name_v.getD "", encrypt (ctx.card_no_v.getD "")⟩]
      else db.card_details
    upi_details :=
      if ctx.ptype = "upi" then db.upi_details ++ [⟨new_payment_id, ctx.upi_id_v.getD ""⟩]
      else db.upi_details
    cart_items := db.cart_items.filter (fun ci => ci.cart_id != ctx.cart.id) }

/-- The transactional phase of `place_order_service` (lines 152-247): stock
decrements, order/order-items/payment/detail inserts and the cart clearing,
all of which either commit together or abort together.  A `true` flag in
`fail` makes the corresponding write raise, which aborts the transaction.
(The pydantic `Money ≥ 0` validation of `OrdersCreate` is not modelled: with
the catalog's non-negative prices the total is never negative.) -/
def place_order_txn (db : DB) (ctx : PlaceCtx) (fail : FailSpec) (today : Int)
    (new_order_id new_payment_id new_item_id : OID) (encrypt : String → String) :
    Except Err (DB × OrderDoc) :=
  match reserveAll db.products ctx.items 0 with
  | .error e => .error e
  | .ok (prods, raw) =>
    if fail.insert_order then .error txnFailErr
    else if fail.insert_order_items then .error txnFailErr
    else if fail.insert_payment then .error txnFailErr
    else if ctx.ptype = "card" ∧ fail.insert_card_details = true then .error txnFailErr
    else if ctx.ptype = "upi" ∧ fail.insert_upi_details = true then .error txnFailErr
    else if fail.delete_cart_items then .error txnFailErr
    else
      .ok (placedDB db ctx prods today new_order_id new_payment_id new_item_id encrypt
            (round2 raw),
          placedOrder ctx today new_order_id (round2 raw))

/-- `app/services/orders.py::place_order_service`: validation phase, then the
all-or-nothing transaction.  Returns the post-call store together with the
result; every error path returns the store unchanged (transaction abort). -/
def place_order_service (db : DB) (fail : FailSpec) (today : Int)
    (new_order_id new_payment_id new_item_id : OID) (encrypt : String → String)
    (address_id payment_type_id : OID) (card_name card_no upi_id : Option String)
    (user_id : OID) : DB × Except Err OrderDoc :=
  match place_order_pre db address_id payment_type_id card_name card_no upi_id user_id with
  | .error e => (db, .error e)
  | .ok ctx =>
    match place_order_txn db ctx fail today new_order_id new_payment_id new_item_id
        encrypt with
    | .error e => (db, .error e)
    | .ok (db', order) => (db', .ok order)

-- ----------------- placement phase characterizations -----------------

/-- Success characterization of the pre-transaction phase: every lookup and
validation it performs, and the context fields it produces. -/
theorem place_order_pre_ok {db : DB} {address_id payment_type_id : OID}
    {card_name card_no upi_id : Option String} {user_id : OID} {ctx : PlaceCtx}
    (h : place_order_pre db address_id payment_type_id card_name card_no upi_id user_id
      = .ok ctx) :
    ∃ addr pt psdoc cart osd,
      db.user_address.find? (fun a => a.id == address_id && a.user_id == user_id)
        = some addr ∧
      db.payment_types.find? (fun t => t.id == payment_type_id) = some pt ∧
      ctx.ptype = pyLower (pyStrip pt.type) ∧
      (ctx.ptype = "cod" ∨ ctx.ptype = "card" ∨ ctx.ptype = "upi") ∧
      db.payment_status.find?
        (fun s => s.status == (if ctx.ptype = "cod" then "pending" else "success"))
        = some psdoc ∧
      ctx.payment_status_id = psdoc.id ∧
      db.carts.find? (fun c => c.user_id == user_id) = some cart ∧
      ctx.cart = cart ∧
      ctx.items = db.cart_items.filter (fun ci => ci.cart_id == cart.id) ∧
      ctx.items ≠ [] ∧
      db.order_status.find? (fun s => s.status == "confirmed") = some osd ∧
      ctx.confirmed_id = osd.id ∧
      ctx.user_id = user_id ∧
      ctx.snap = addr.snap ∧
      ctx.payment_type_id = payment_type_id ∧
      (ctx.ptype = "card" → ∃ nm no, require_card_details card_name card_no = .ok (nm, no) ∧
        ctx.card_name_v = some nm ∧ ctx.card_no_v = some no) ∧
      (ctx.ptype = "upi" → ∃ u, require_upi_details upi_id = .ok u ∧
        ctx.upi_id_v = some u) := by
  unfold place_order_pre at h
  cases haddr : db.user_address.find? (fun a => a.id == address_id && a.user_id == user_id)
    with
  | none => rw [haddr] at h; exact Except.noConfusion h
  | some addr =>
    simp only [haddr] at h
    cases hpt : db.payment_types.find? (fun t => t.id == payment_type_id) with
    | none => rw [hpt] at h; exact Except.noConfusion h
    | some pt =>
      simp only [hpt] at h
      by_cases hptype : pyLower (pyStrip pt.type) = "cod" ∨
          pyLower (pyStrip pt.type) = "card" ∨ pyLower (pyStrip pt.type) = "upi"
      · rw [if_pos hptype] at h
        cases hps : db.payment_status.find? (fun s => s.status ==
            (if pyLower (pyStrip pt.type) = "cod" then "pending" else "success")) with
        | none => rw [hps] at h; exact Except.noConfusion h
        | some psdoc =>
          simp only [hps] at h
          cases hcart : db.carts.find? (fun c => c.user_id == user_id) with
          | none => rw [hcart] at h; exact Except.noConfusion h
          | some cart =>
            simp only [hcart] at h
            by_cases hemp :
                (db.cart_items.filter (fun ci => ci.cart_id == cart.id)).isEmpty = true
            · rw [if_pos hemp] at h; exact Except.noConfusion h
            · rw [if_neg hemp] at h
              have hne : db.cart_items.filter (fun ci => ci.cart_id == cart.id) ≠ [] := by
                intro hc
                rw [hc] at hemp
                exact hemp rfl
              cases hosd : db.order_status.find? (fun s => s.status == "confirmed") with
              | none => rw [hosd] at h; exact Except.noConfusion h
              | some osd =>
                simp only [hosd] at h
                by_cases hcard : pyLower (pyStrip pt.type) = "card"
                · rw [if_pos hcard] at h
                  cases hval : require_card_details card_name card_no with
                  | error e => rw [hval] at h; exact Except.noConfusion h
                  | ok v =>
                    obtain ⟨nm, no⟩ := v
                    rw [hval] at h
                    injection h with h
                    subst h
                    refine ⟨addr, pt, psdoc, cart, osd, rfl, rfl, rfl,
                      Or.inr (Or.inl hcard), hps, rfl, rfl, rfl, rfl, hne, rfl, rfl,
                      rfl, rfl, rfl, ?_, ?_⟩
                    · intro _; exact ⟨nm, no, rfl, rfl, rfl⟩
                    · intro hupi; exact absurd (hcard.symm.trans hupi) (by decide)
                · rw [if_neg hcard] at h
                  by_cases hupi : pyLower (pyStrip pt.type) = "upi"
                  · rw [if_pos hupi] at h
                    cases hval : require_upi_details upi_id with
                    | error e => rw [hval] at h; exact Except.noConfusion h
                    | ok u =>
                      rw [hval] at h
                      injection h with h
                      subst h
                      refine ⟨addr, pt, psdoc, cart, osd, rfl, rfl, rfl,
                        Or.inr (Or.inr hupi), hps, rfl, rfl, rfl, rfl, hne, rfl, rfl,
                        rfl, rfl, rfl, ?_, ?_⟩
                      · intro hc; exact absurd hc hcard
                      · intro _; exact ⟨u, rfl, rfl⟩
                  · rw [if_neg hupi] at h
                    injection h with h
                    subst h
                    refine ⟨addr, pt, psdoc, cart, osd, rfl, rfl, rfl, hptype, hps,
                      rfl, rfl, rfl, rfl, hne, rfl, rfl, rfl, rfl, rfl, ?_, ?_⟩
                    · intro hc; exact absurd hc hcard
                    · intro hc; exact absurd hc hupi
      · rw [if_neg hptype] at h
        exact Except.noConfusion h

/-- Success characterization of the transactional phase. -/
theorem place_order_txn_ok {db : DB} {ctx : PlaceCtx} {fail : FailSpec} {today : Int}
    {noid npid nitid : OID} {encrypt : String → String} {db2 : DB} {order : OrderDoc}
    (h : place_order_txn db ctx fail today noid npid nitid encrypt = .ok (db2, order)) :
    ∃ prods raw, reserveAll db.products ctx.items 0 = .ok (prods, raw) ∧
      order = placedOrder ctx today noid (round2 raw) ∧
      db2 = placedDB db ctx prods today noid npid nitid encrypt (round2 raw) := by
  unfold place_order_txn at h
  cases hres : reserveAll db.products ctx.items 0 with
  | error e => rw [hres] at h; exact Except.noConfusion h
  | ok v =>
    obtain ⟨prods, raw⟩ := v
    simp only [hres] at h
    split_ifs at h
    simp only [Except.ok.injEq, Prod.mk.injEq] at h
    exact ⟨prods, raw, rfl, h.2.symm, h.1.symm⟩

-- ----------------- C1: placement is all-or-nothing -----------------

/-- C1: order placement is atomic.  Any failure — insufficient stock on any
cart line, any insert failure, or a failing cart-clearing step (all modelled
by `FailSpec` or by the data) — leaves the store exactly as it was: product
quantities and flags, orders, order items, payments, card/UPI details and
cart items all keep their pre-attempt values.  On success the fully-formed
order, its order items (one per cart line), exactly one payment with its
matching detail row, and the emptied cart are all visible together. -/
theorem place_order_atomicity
    (db : DB) (fail : FailSpec) (today : Int) (noid npid nitid : OID)
    (encrypt : String → String) (address_id payment_type_id : OID)
    (card_name card_no upi_id : Option String) (user_id : OID)
    (db' : DB) (res : Except Err OrderDoc)
    (h : place_order_service db fail today noid npid nitid encrypt address_id
      payment_type_id card_name card_no upi_id user_id = (db', res)) :
    (∀ e : Err, res = .error e → db' = db) ∧
    (∀ o : OrderDoc, res = .ok o →
      ∃ ctx prods raw,
        place_order_pre db address_id payment_type_id card_name card_no upi_id user_id
          = .ok ctx ∧
        reserveAll db.products ctx.items 0 = .ok (prods, raw) ∧
        o = placedOrder ctx today noid (round2 raw) ∧
        db' = placedDB db ctx prods today noid npid nitid encrypt (round2 raw) ∧
        db'.orders = db.orders ++ [o] ∧
        db'.order_items = db.order_items ++ placedOrderItems ctx noid nitid ∧
        (placedOrderItems ctx noid nitid).length = ctx.items.length ∧
        (∀ row ∈ placedOrderItems ctx noid nitid, row.order_id = o.id) ∧
        db'.payments = db.payments ++ [placedPayment ctx noid npid (round2 raw)] ∧
        (placedPayment ctx noid npid (round2 raw)).order_id = o.id ∧
        (ctx.ptype = "card" →
          db'.card_details = db.card_details ++
            [⟨npid, ctx.card_name_v.getD "", encrypt (ctx.card_no_v.getD "")⟩] ∧
          db'.upi_details = db.upi_details) ∧
        (ctx.ptype = "upi" →
          db'.upi_details = db.upi_details ++ [⟨npid, ctx.upi_id_v.getD ""⟩] ∧
          db'.card_details = db.card_details) ∧
        (ctx.ptype = "cod" →
          db'.card_details = db.card_details ∧ db'.upi_details = db.upi_details) ∧
        ctx.items ≠ [] ∧
        db'.cart_items = db.cart_items.filter (fun ci => ci.cart_id != ctx.cart.id) ∧
        db'.cart_items.filter (fun ci => ci.cart_id == ctx.cart.id) = []) := by
  unfold place_order_service at h
  cases hpre : place_order_pre db address_id payment_type_id card_name card_no upi_id
      user_id with
  | error e =>
    simp only [hpre] at h
    obtain ⟨h1, h2⟩ := Prod.mk.injEq .. ▸ h
    constructor
    · intro _ _; exact h1.symm
    · intro o ho; rw [← h2] at ho; exact Except.noConfusion ho
  | ok ctx =>
    simp only [hpre] at h
    cases htxn : place_order_txn db ctx fail today noid npid nitid encrypt with
    | error e =>
      simp only [htxn] at h
      obtain ⟨h1, h2⟩ := Prod.mk.injEq .. ▸ h
      constructor
      · intro _ _; exact h1.symm
      · intro o ho; rw [← h2] at ho; exact Except.noConfusion ho
    | ok v =>
      obtain ⟨db2, order⟩ := v
      simp only [htxn] at h
      obtain ⟨h1, h2⟩ := Prod.mk.injEq .. ▸ h
      subst h1
      constructor
      · intro e he; rw [← h2] at he; exact Except.noConfusion he
      · intro o ho
        rw [← h2] at ho
        injection ho with ho
        subst ho
        obtain ⟨prods, raw, hres, horder, hdb2⟩ := place_order_txn_ok htxn
        obtain ⟨addr, pt, psdoc, cart, osd, -, -, -, -, -, -, -, -, -, hne, -, -, -, -,
          -, -, -⟩ := place_order_pre_ok hpre
        subst horder hdb2
        refine ⟨ctx, prods, raw, rfl, hres, rfl, rfl, rfl, rfl, ?_, ?_, rfl, rfl,
          ?_, ?_, ?_, hne, rfl, ?_⟩
        · simp [placedOrderItems]
        · intro row hrow
          simp only [placedOrderItems, List.mem_map] at hrow
          obtain ⟨p, -, rfl⟩ := hrow
          rfl
        · intro hcard
          constructor
          · show (if ctx.ptype = "card" then _ else _) = _
            rw [if_pos hcard]
          · show (if ctx.ptype = "upi" then _ else _) = _
            rw [hcard]
            rw [if_neg (by decide)]
        · intro hupi
          constructor
          · show (if ctx.ptype = "upi" then _ else _) = _
            rw [if_pos hupi]
          · show (if ctx.ptype = "card" then _ else _) = _
            rw [hupi]
            rw [if_neg (by decide)]
        · intro hcod
          constructor
          · show (if ctx.ptype = "card" then _ else _) = _
            rw [hcod]
            rw [if_neg (by decide)]
          · show (if ctx.ptype = "upi" then _ else _) = _
            rw [hcod]
            rw [if_neg (by decide)]
        · rw [List.filter_eq_nil_iff]
          intro ci hci
          have := List.of_mem_filter hci
          simp only [bne_iff_ne, ne_eq] at this
          simp [this]

-- ----------------- C3: stock reservation machinery -----------------

/-- Helper for stating map-equalities: `l.map f = l` when `f` fixes every
element of `l`. -/
theorem map_eq_self_of_forall {f : α → α} :
    ∀ {l : List α}, (∀ a ∈ l, f a = a) → l.map f = l := by
  intro l h
  exact (List.map_congr_left h).trans (List.map_id l)

/-- The effect of one reservation on the matched product document: the
conditional decrement followed by the guarded out-of-stock flip. -/
def reservedProduct (p : Product) (qty : Int) : Product :=
  let a := { p with quantity := p.quantity - qty }
  if a.quantity = 0 ∧ a.out_of_stock = false then { a with out_of_stock := true } else a

theorem decrementFirst_mem :
    ∀ {ps : List Product} {pid : OID} {qty : Int} {ps' : List Product} {a : Product},
      decrementFirst ps pid qty = some (ps', a) →
      ∃ x ∈ ps, x.id = pid ∧ qty ≤ x.quantity := by
  intro ps
  induction ps with
  | nil => intro pid qty ps' a h; simp [decrementFirst] at h
  | cons p rest ih =>
    intro pid qty ps' a h
    unfold decrementFirst at h
    by_cases hc : p.id = pid ∧ qty ≤ p.quantity
    · exact ⟨p, by simp, hc⟩
    · rw [if_neg hc] at h
      cases hrec : decrementFirst rest pid qty with
      | none => rw [hrec] at h; exact Option.noConfusion h
      | some v =>
        obtain ⟨ps'', a'⟩ := v
        obtain ⟨x, hx, hxp⟩ := ih hrec
        exact ⟨x, List.mem_cons_of_mem p hx, hxp⟩

/-- Under unique product ids, the conditional decrement rewrites exactly the
(unique) document with the given id, provided it has enough stock. -/
theorem decrementFirst_eq_map :
    ∀ {ps : List Product} {pid : OID} {qty : Int} {p0 : Product},
      (ps.map Product.id).Nodup →
      ps.find? (fun p => p.id == pid) = some p0 →
      qty ≤ p0.quantity →
      decrementFirst ps pid qty = some
        (ps.map (fun p => if p.id = pid then { p with quantity := p.quantity - qty } else p),
         { p0 with quantity := p0.quantity - qty }) := by
  intro ps
  induction ps with
  | nil => intro pid qty p0 hn hf hq; simp at hf
  | cons p rest ih =>
    intro pid qty p0 hn hf hq
    rw [List.map_cons, List.nodup_cons] at hn
    obtain ⟨hp_notin, hn'⟩ := hn
    by_cases hid : p.id = pid
    · rw [List.find?_cons_of_pos _ (by simp [hid])] at hf
      injection hf with hf
      subst hf
      unfold decrementFirst
      rw [if_pos ⟨hid, hq⟩, List.map_cons, if_pos hid]
      have hrest : rest.map (fun p =>
          if p.id = pid then { p with quantity := p.quantity - qty } else p) = rest := by
        apply map_eq_self_of_forall
        intro x hx
        rw [if_neg]
        intro hc
        rw [hid] at hp_notin
        exact hp_notin (hc ▸ List.mem_map_of_mem Product.id hx)
      rw [hrest]
    · rw [List.find?_cons_of_neg _ (by simp [hid])] at hf
      unfold decrementFirst
      rw [if_neg (fun hc => hid hc.1)]
      rw [ih hn' hf hq, List.map_cons, if_neg hid]

/-- Under unique product ids, the guarded flag flip rewrites exactly the
(unique) document with the given id, provided its flag is not already set. -/
theorem setOutOfStockFirst_eq_map :
    ∀ {ps : List Product} {pid : OID},
      (ps.map Product.id).Nodup →
      (∀ p ∈ ps, p.id = pid → p.out_of_stock = false) →
      setOutOfStockFirst ps pid =
        ps.map (fun p => if p.id = pid then { p with out_of_stock := true } else p) := by
  intro ps
  induction ps with
  | nil => intro pid hn hflag; rfl
  | cons p rest ih =>
    intro pid hn hflag
    rw [List.map_cons, List.nodup_cons] at hn
    obtain ⟨hp_notin, hn'⟩ := hn
    unfold setOutOfStockFirst
    by_cases hid : p.id = pid
    · rw [if_pos ⟨hid, by rw [hflag p (by simp) hid]; simp⟩, List.map_cons, if_pos hid]
      have hrest : rest.map (fun p =>
          if p.id = pid then { p with out_of_stock := true } else p) = rest := by
        apply map_eq_self_of_forall
        intro x hx
        rw [if_neg]
        intro hc
        rw [hid] at hp_notin
        exact hp_notin (hc ▸ List.mem_map_of_mem Product.id hx)
      rw [hrest]
    · rw [if_neg (fun hc => hid hc.1), List.map_cons, if_neg hid]
      rw [ih hn' (fun x hx => hflag x (List.mem_cons_of_mem p hx))]

/-- Mapping an id-preserving function commutes with `find?` by id. -/
theorem find?_map_id_preserving {g : Product → Product} (hg : ∀ p, (g p).id = p.id) :
    ∀ {ps : List Product} {pid : OID} {p0 : Product},
      ps.find? (fun p => p.id == pid) = some p0 →
      (ps.map g).find? (fun p => p.id == pid) = some (g p0) := by
  intro ps
  induction ps with
  | nil => intro pid p0 h; simp at h
  | cons p rest ih =>
    intro pid p0 h
    by_cases hid : p.id = pid
    · rw [List.find?_cons_of_pos _ (by simp [hid])] at h
      injection h with h
      subst h
      rw [List.map_cons, List.find?_cons_of_pos _ (by simp [hg, hid])]
    · rw [List.find?_cons_of_neg _ (by simp [hid])] at h
      rw [List.map_cons, List.find?_cons_of_neg _ (by simp [hg, hid])]
      exact ih h

/-- Under unique product ids, one reservation rewrites exactly the matched
document (decrement + guarded flag flip) and bills the matched document's
price. -/
theorem reserveLine_eq_map {ps : List Product} {pid : OID} {qty : Int} {p0 : Product}
    (hn : (ps.map Product.id).Nodup)
    (hf : ps.find? (fun p => p.id == pid) = some p0)
    (hq : qty ≤ p0.quantity) :
    reserveLine ps pid qty = some
      (ps.map (fun p => if p.id = pid then reservedProduct p qty else p), priceOf p0) := by
  have hp0id : p0.id = pid := by simpa using List.find?_some hf
  have hp0mem : p0 ∈ ps := List.mem_of_find?_eq_some hf
  have huniq : ∀ x ∈ ps, x.id = pid → x = p0 := fun x hx hxid =>
    List.inj_on_of_nodup_map hn hx hp0mem (by rw [hxid, hp0id])
  unfold reserveLine
  rw [decrementFirst_eq_map hn hf hq]
  dsimp only
  by_cases hcond : ({ p0 with quantity := p0.quantity - qty } : Product).quantity = 0 ∧
      ({ p0 with quantity := p0.quantity - qty } : Product).out_of_stock = false
  · rw [if_pos hcond]
    have hid_pres : ∀ p : Product,
        ((if p.id = pid then { p with quantity := p.quantity - qty } else p) : Product).id
          = p.id := by
      intro p; split <;> rfl
    have hmapid : ((ps.map (fun p =>
        if p.id = pid then { p with quantity := p.quantity - qty } else p)).map Product.id)
        = ps.map Product.id := by
      rw [List.map_map]
      exact List.map_congr_left (fun p _ => hid_pres p)
    have hn2 := hmapid ▸ hn
    have hf2 := find?_map_id_preserving hid_pres hf
    rw [if_pos hp0id] at hf2
    have hflag : ∀ x ∈ ps.map (fun p =>
        if p.id = pid then { p with quantity := p.quantity - qty } else p),
        x.id = pid → x.out_of_stock = false := by
      intro x hx hxid
      rw [List.mem_map] at hx
      obtain ⟨y, hy, rfl⟩ := hx
      rw [hid_pres y] at hxid
      rw [huniq y hy hxid, if_pos hp0id]
      exact hcond.2
    rw [setOutOfStockFirst_eq_map hn2 hflag, List.map_map]
    congr 1
    apply Prod.ext
    · simp only
      apply List.map_congr_left
      intro x hx
      by_cases hxid : x.id = pid
      · rw [huniq x hx hxid]
        simp only [Function.comp]
        rw [if_pos hp0id, if_pos hp0id]
        unfold reservedProduct
        rw [if_pos hcond]
        rw [if_pos hp0id]
      · simp only [Function.comp]
        rw [if_neg hxid, if_neg hxid, if_neg hxid]
    · rfl
  · rw [if_neg hcond]
    congr 1
    apply Prod.ext
    · simp only
      apply List.map_congr_left
      intro x hx
      by_cases hxid : x.id = pid
      · rw [huniq x hx hxid, if_pos hp0id, if_pos hp0id]
        unfold reservedProduct
        rw [if_neg hcond]
      · rw [if_neg hxid, if_neg hxid]
    · rfl

theorem decrementFirst_eq_none_of :
    ∀ {ps : List Product} {pid : OID} {qty : Int},
      (∀ x ∈ ps, ¬(x.id = pid ∧ qty ≤ x.quantity)) → decrementFirst ps pid qty = none := by
  intro ps
  induction ps with
  | nil => intro pid qty h; rfl
  | cons p rest ih =>
    intro pid qty h
    unfold decrementFirst
    rw [if_neg (h p (by simp)), ih (fun x hx => h x (List.mem_cons_of_mem p hx))]

theorem decrementFirst_none_iff :
    ∀ {ps : List Product} {pid : OID} {qty : Int},
      decrementFirst ps pid qty = none ↔ ∀ x ∈ ps, ¬(x.id = pid ∧ qty ≤ x.quantity) := by
  intro ps
  induction ps with
  | nil => intro pid qty; simp [decrementFirst]
  | cons p rest ih =>
    intro pid qty
    unfold decrementFirst
    by_cases hc : p.id = pid ∧ qty ≤ p.quantity
    · rw [if_pos hc]
      constructor
      · intro h; exact Option.noConfusion h
      · intro h; exact absurd hc (h p (by simp))
    · rw [if_neg hc]
      cases hrec : decrementFirst rest pid qty with
      | none =>
        constructor
        · intro _ x hx
          rcases List.mem_cons.mp hx with rfl | hx2
          · exact hc
          · exact (ih.mp hrec) x hx2
        · intro _; rfl
      | some v =>
        obtain ⟨ps', a⟩ := v
        constructor
        · intro h; exact Option.noConfusion h
        · intro h
          have := ih.mpr (fun x hx => h x (List.mem_cons_of_mem p hx))
          rw [this] at hrec
          exact Option.noConfusion hrec

theorem reserveLine_isSome_iff {ps : List Product} {pid : OID} {qty : Int} :
    (reserveLine ps pid qty).isSome = true ↔ ∃ p ∈ ps, p.id = pid ∧ qty ≤ p.quantity := by
  unfold reserveLine
  cases hd : decrementFirst ps pid qty with
  | none =>
    simp only [Option.isSome_none, Bool.false_eq_true, false_iff]
    intro ⟨p, hp, h1, h2⟩
    exact (decrementFirst_none_iff.mp hd) p hp ⟨h1, h2⟩
  | some v =>
    obtain ⟨ps', a⟩ := v
    simp only [Option.isSome_some, true_iff]
    exact decrementFirst_mem hd

theorem decrementFirst_nonneg :
    ∀ {ps : List Product} {pid : OID} {qty : Int} {ps' : List Product} {a : Product},
      (∀ p ∈ ps, 0 ≤ p.quantity) → decrementFirst ps pid qty = some (ps', a) →
      ∀ p ∈ ps', 0 ≤ p.quantity := by
  intro ps
  induction ps with
  | nil => intro pid qty ps' a hpos h; simp [decrementFirst] at h
  | cons p rest ih =>
    intro pid qty ps' a hpos h
    unfold decrementFirst at h
    by_cases hc : p.id = pid ∧ qty ≤ p.quantity
    · rw [if_pos hc] at h
      simp only [Option.some.injEq, Prod.mk.injEq] at h
      obtain ⟨h1, -⟩ := h
      subst h1
      intro x hx
      rcases List.mem_cons.mp hx with rfl | hx2
      · simp only
        omega
      · exact hpos x (List.mem_cons_of_mem p hx2)
    · rw [if_neg hc] at h
      cases hrec : decrementFirst rest pid qty with
      | none => rw [hrec] at h; exact Option.noConfusion h
      | some v =>
        obtain ⟨ps'', a'⟩ := v
        rw [hrec] at h
        simp only [Option.some.injEq, Prod.mk.injEq] at h
        obtain ⟨h1, -⟩ := h
        subst h1
        intro x hx
        rcases List.mem_cons.mp hx with rfl | hx2
        · exact hpos x (by simp)
        · exact ih (fun y hy => hpos y (List.mem_cons_of_mem p hy)) hrec x hx2

theorem setOutOfStockFirst_nonneg :
    ∀ {ps : List Product} {pid : OID},
      (∀ p ∈ ps, 0 ≤ p.quantity) → ∀ p ∈ setOutOfStockFirst ps pid, 0 ≤ p.quantity := by
  intro ps
  induction ps with
  | nil => intro pid hpos p hp; simp [setOutOfStockFirst] at hp
  | cons p rest ih =>
    intro pid hpos x hx
    unfold setOutOfStockFirst at hx
    by_cases hc : p.id = pid ∧ p.out_of_stock ≠ true
    · rw [if_pos hc] at hx
      rcases List.mem_cons.mp hx with rfl | hx2
      · exact hpos p (by simp)
      · exact hpos x (List.mem_cons_of_mem p hx2)
    · rw [if_neg hc] at hx
      rcases List.mem_cons.mp hx with rfl | hx2
      · exact hpos x (by simp)
      · exact ih (fun y hy => hpos y (List.mem_cons_of_mem p hy)) x hx2

theorem reserveLine_nonneg {ps : List Product} {pid : OID} {qty : Int}
    {ps' : List Product} {pr : ℚ}
    (hpos : ∀ p ∈ ps, 0 ≤ p.quantity) (h : reserveLine ps pid qty = some (ps', pr)) :
    ∀ p ∈ ps', 0 ≤ p.quantity := by
  unfold reserveLine at h
  cases hd : decrementFirst ps pid qty with
  | none => rw [hd] at h; exact Option.noConfusion h
  | some v =>
    obtain ⟨ps'', a⟩ := v
    rw [hd] at h
    simp only [Option.some.injEq, Prod.mk.injEq] at h
    obtain ⟨h1, -⟩ := h
    subst h1
    split
    · exact setOutOfStockFirst_nonneg (decrementFirst_nonneg hpos hd)
    · exact decrementFirst_nonneg hpos hd

theorem reserveAll_nonneg :
    ∀ {items : List CartItem} {ps : List Product} {acc : ℚ} {ps2 : List Product} {t : ℚ},
      (∀ p ∈ ps, 0 ≤ p.quantity) → reserveAll ps items acc = .ok (ps2, t) →
      ∀ p ∈ ps2, 0 ≤ p.quantity := by
  intro items
  induction items with
  | nil =>
    intro ps acc ps2 t hpos h
    unfold reserveAll at h
    simp only [Except.ok.injEq, Prod.mk.injEq] at h
    obtain ⟨h1, -⟩ := h
    subst h1
    exact hpos
  | cons it its ih =>
    intro ps acc ps2 t hpos h
    unfold reserveAll at h
    cases hline : reserveLine ps it.product_id it.quantity with
    | none => rw [hline] at h; exact Except.noConfusion h
    | some v =>
      obtain ⟨ps', price⟩ := v
      rw [hline] at h
      exact ih (reserveLine_nonneg hpos hline) h

-- ----------------- C3: the reservation contract -----------------

/-- C3: stock reservation is a single conditional decrement.  (a) it succeeds
exactly when some stored document has the product id and at least the
requested quantity; (b) under unique product ids a successful reservation
rewrites exactly the matched document — its quantity drops by `qty` and stays
non-negative, and its `out_of_stock` flag becomes true exactly when the
post-decrement quantity hits zero (it is never cleared) — while every other
document is untouched, and the billed price is the matched document's price;
(c) when no document matches, the stock loop raises the 400
`InsufficientStock` error; (d) placement therefore never drives any stored
quantity negative. -/
theorem stock_reservation_spec :
    (∀ (ps : List Product) (pid : OID) (qty : Int),
      (reserveLine ps pid qty).isSome = true ↔
        ∃ p ∈ ps, p.id = pid ∧ qty ≤ p.quantity) ∧
    (∀ (ps : List Product) (pid : OID) (qty : Int) (p0 : Product),
      (ps.map Product.id).Nodup →
      ps.find? (fun p => p.id == pid) = some p0 →
      qty ≤ p0.quantity →
      reserveLine ps pid qty = some
        (ps.map (fun p => if p.id = pid then reservedProduct p qty else p), priceOf p0) ∧
      (reservedProduct p0 qty).quantity = p0.quantity - qty ∧
      0 ≤ (reservedProduct p0 qty).quantity ∧
      ((reservedProduct p0 qty).quantity = 0 → (reservedProduct p0 qty).out_of_stock = true) ∧
      ((reservedProduct p0 qty).quantity ≠ 0 →
        (reservedProduct p0 qty).out_of_stock = p0.out_of_stock)) ∧
    (∀ (ps : List Product) (pid : OID) (qty : Int),
      (∀ p ∈ ps, p.id = pid → p.quantity < qty) →
      reserveLine ps pid qty = none ∧
      ∀ (cid : OID) (sz : Option String) (acc : ℚ),
        reserveAll ps [⟨cid, pid, qty, sz⟩] acc = .error insufficientStockErr) ∧
    (∀ (db : DB) (fail : FailSpec) (today : Int) (noid npid nitid : OID)
        (encrypt : String → String) (aid ptid : OID) (cn cno upi : Option String)
        (uid : OID),
      (∀ p ∈ db.products, 0 ≤ p.quantity) →
      ∀ p ∈ ((place_order_service db fail today noid npid nitid encrypt aid ptid cn cno
        upi uid).1).products, 0 ≤ p.quantity) := by
  refine ⟨fun ps pid qty => reserveLine_isSome_iff, ?_, ?_, ?_⟩
  · intro ps pid qty p0 hn hf hq
    have hquant : (reservedProduct p0 qty).quantity = p0.quantity - qty := by
      unfold reservedProduct
      dsimp only
      split <;> rfl
    refine ⟨reserveLine_eq_map hn hf hq, hquant, by omega, ?_, ?_⟩
    · intro h0
      unfold reservedProduct
      rw [hquant] at h0
      by_cases hfl : p0.out_of_stock = false
      · rw [if_pos ⟨by simpa using h0, hfl⟩]
      · rw [if_neg (fun hc => hfl hc.2)]
        simpa using eq_true_of_ne_false hfl
    · intro hne
      unfold reservedProduct
      rw [hquant] at hne
      rw [if_neg (fun hc => hne (by simpa using hc.1))]
  · intro ps pid qty hlt
    have hnone : decrementFirst ps pid qty = none :=
      decrementFirst_eq_none_of (fun x hx hc => by
        have := hlt x hx hc.1
        omega)
    constructor
    · unfold reserveLine
      rw [hnone]
    · intro cid sz acc
      unfold reserveAll
      unfold reserveLine
      rw [hnone]
  · intro db fail today noid npid nitid encrypt aid ptid cn cno upi uid hpos p hp
    rcases hsvc : place_order_service db fail today noid npid nitid encrypt aid ptid cn
        cno upi uid with ⟨db', res⟩
    rw [hsvc] at hp
    unfold place_order_service at hsvc
    cases hpre : place_order_pre db aid ptid cn cno upi uid with
    | error e =>
      simp only [hpre] at hsvc
      obtain ⟨h1, -⟩ := Prod.mk.injEq .. ▸ hsvc
      subst h1
      exact hpos p hp
    | ok ctx =>
      simp only [hpre] at hsvc
      cases htxn : place_order_txn db ctx fail today noid npid nitid encrypt with
      | error e =>
        simp only [htxn] at hsvc
        obtain ⟨h1, -⟩ := Prod.mk.injEq .. ▸ hsvc
        subst h1
        exact hpos p hp
      | ok v =>
        obtain ⟨db2, order⟩ := v
        simp only [htxn] at hsvc
        obtain ⟨h1, -⟩ := Prod.mk.injEq .. ▸ hsvc
        subst h1
        obtain ⟨prods, raw, hres, -, hdb2⟩ := place_order_txn_ok htxn
        rw [hdb2] at hp
        exact reserveAll_nonneg hpos hres p hp

/-- Witness for `stock_reservation_spec`: with 5 in stock, reserving 5
succeeds (flag flips at zero) and bills the unit price; with 2 in stock,
reserving 5 matches nothing. -/
theorem stock_reservation_spec_witness :
    reserveLine [⟨1, some 100, none, 5, false⟩] 1 5 =
      some (([⟨1, some 100, none, 5, false⟩] : List Product).map
        (fun p => if p.id = 1 then reservedProduct p 5 else p),
        priceOf ⟨1, some 100, none, 5, false⟩) ∧
    reserveLine [⟨1, some 100, none, 2, false⟩] 1 5 = none :=
  ⟨(stock_reservation_spec.2.1 [⟨1, some 100, none, 5, false⟩] 1 5
      ⟨1, some 100, none, 5, false⟩ (by decide) rfl (by decide)).1,
   (stock_reservation_spec.2.2.1 [⟨1, some 100, none, 2, false⟩] 1 5 (by decide)).1⟩

-- ----------------- C2: totals and the success shape -----------------

/-- Price lookup by product id (the price the catalog currently lists). -/
def priceOfId (ps : List Product) (pid : OID) : ℚ :=
  match ps.find? (fun p => p.id == pid) with
  | some p => priceOf p
  | none => 0

/-- The specification-side order total: sum over cart lines of the listed
unit price times the line quantity (no intermediate rounding). -/
def specLineTotal (ps : List Product) (items : List CartItem) : ℚ :=
  items.foldl (fun acc it => acc + priceOfId ps it.product_id * (it.quantity : ℚ)) 0

theorem priceOf_reservedProduct (p : Product) (qty : Int) :
    priceOf (reservedProduct p qty) = priceOf p := by
  unfold reservedProduct
  dsimp only
  split <;> rfl

theorem reservedProduct_id (p : Product) (qty : Int) :
    (reservedProduct p qty).id = p.id := by
  unfold reservedProduct
  dsimp only
  split <;> rfl

theorem priceOfId_map_invariant {g : Product → Product}
    (hid : ∀ p, (g p).id = p.id) (hpr : ∀ p, priceOf (g p) = priceOf p) :
    ∀ (ps : List Product) (x : OID), priceOfId (ps.map g) x = priceOfId ps x := by
  intro ps
  induction ps with
  | nil => intro x; rfl
  | cons p rest ih =>
    intro x
    unfold priceOfId
    by_cases hx : p.id = x
    · rw [List.map_cons, List.find?_cons_of_pos _ (by simp [hid, hx]),
        List.find?_cons_of_pos _ (by simp [hx])]
      exact hpr p
    · rw [List.map_cons, List.find?_cons_of_neg _ (by simp [hid, hx]),
        List.find?_cons_of_neg _ (by simp [hx])]
      exact ih x

theorem specLineTotal_congr {ps ps' : List Product}
    (h : ∀ x, priceOfId ps' x = priceOfId ps x) :
    ∀ (items : List CartItem), specLineTotal ps' items = specLineTotal ps items := by
  have haux : ∀ (items : List CartItem) (acc : ℚ),
      items.foldl (fun acc it => acc + priceOfId ps' it.product_id * (it.quantity : ℚ)) acc
        = items.foldl (fun acc it => acc + priceOfId ps it.product_id * (it.quantity : ℚ))
            acc := by
    intro items
    induction items with
    | nil => intro acc; rfl
    | cons it its ih => intro acc; simp only [List.foldl_cons, h, ih]
  intro items
  exact haux items 0

/-- Under unique ids, a successful `reserveLine` is exactly the map-form
rewrite of the unique matched document, and bills its listed price. -/
theorem reserveLine_success_form {ps : List Product} {pid : OID} {qty : Int}
    {ps' : List Product} {pr : ℚ}
    (hn : (ps.map Product.id).Nodup)
    (h : reserveLine ps pid qty = some (ps', pr)) :
    ∃ p0, ps.find? (fun p => p.id == pid) = some p0 ∧ qty ≤ p0.quantity ∧
      ps' = ps.map (fun p => if p.id = pid then reservedProduct p qty else p) ∧
      pr = priceOf p0 := by
  have hsome : (reserveLine ps pid qty).isSome = true := by rw [h]; rfl
  obtain ⟨p, hp, hpid, hpq⟩ := reserveLine_isSome_iff.mp hsome
  have hfs : (ps.find? (fun p => p.id == pid)).isSome = true := by
    rw [List.find?_isSome]
    exact ⟨p, hp, by simp [hpid]⟩
  obtain ⟨p0, hf⟩ := Option.isSome_iff_exists.mp hfs
  have hp0 : p0 = p := by
    have hp0id : p0.id = pid := by simpa using List.find?_some hf
    exact List.inj_on_of_nodup_map hn (List.mem_of_find?_eq_some hf) hp
      (by rw [hp0id, hpid])
  have hq0 : qty ≤ p0.quantity := by rw [hp0]; exact hpq
  have := reserveLine_eq_map hn hf hq0
  rw [h] at this
  injection this with this
  obtain ⟨h1, h2⟩ := Prod.mk.injEq .. ▸ this
  exact ⟨p0, hf, hq0, h1, h2⟩

/-- Under unique product ids the stock loop's accumulated total is the sum of
listed price × quantity over the cart lines, and the catalog's ids and prices
are unchanged by it. -/
theorem reserveAll_total :
    ∀ {items : List CartItem} {ps : List Product} {acc : ℚ} {ps2 : List Product} {t : ℚ},
      (ps.map Product.id).Nodup →
      reserveAll ps items acc = .ok (ps2, t) →
      t = acc + specLineTotal ps items ∧
      (∀ x, priceOfId ps2 x = priceOfId ps x) ∧
      ps2.map Product.id = ps.map Product.id := by
  intro items
  induction items with
  | nil =>
    intro ps acc ps2 t hn h
    unfold reserveAll at h
    simp only [Except.ok.injEq, Prod.mk.injEq] at h
    obtain ⟨h1, h2⟩ := h
    subst h1 h2
    exact ⟨by simp [specLineTotal], fun x => rfl, rfl⟩
  | cons it its ih =>
    intro ps acc ps2 t hn h
    unfold reserveAll at h
    cases hline : reserveLine ps it.product_id it.quantity with
    | none => rw [hline] at h; exact Except.noConfusion h
    | some v =>
      obtain ⟨ps', price⟩ := v
      rw [hline] at h
      obtain ⟨p0, hf, hq0, hps', hpr⟩ := reserveLine_success_form hn hline
      have hid : ∀ p : Product,
          ((if p.id = it.product_id then reservedProduct p it.quantity else p) : Product).id
            = p.id := by
        intro p; split
        · rw [reservedProduct_id]
        · rfl
      have hprice : ∀ p : Product,
          priceOf (if p.id = it.product_id then reservedProduct p it.quantity else p)
            = priceOf p := by
        intro p; split
        · rw [priceOf_reservedProduct]
        · rfl
      have hmapid : ps'.map Product.id = ps.map Product.id := by
        rw [hps', List.map_map]
        exact List.map_congr_left (fun p _ => hid p)
      have hn' : (ps'.map Product.id).Nodup := by rw [hmapid]; exact hn
      obtain ⟨ht, hpinv, hmap2⟩ := ih hn' h
      have hpinv0 : ∀ x, priceOfId ps' x = priceOfId ps x := by
        intro x
        rw [hps']
        exact priceOfId_map_invariant hid hprice ps x
      refine ⟨?_, fun x => (hpinv x).trans (hpinv0 x), hmap2.trans hmapid⟩
      rw [ht, specLineTotal_congr hpinv0]
      have hpid0 : priceOfId ps it.product_id = priceOf p0 := by
        unfold priceOfId
        rw [hf]
      unfold specLineTotal
      rw [List.foldl_cons, foldl_add_shift
        (fun it : CartItem => priceOfId ps it.product_id * (it.quantity : ℚ)) its]
      rw [hpr, hpid0]
      rw [foldl_add_shift
        (fun it : CartItem => priceOfId ps it.product_id * (it.quantity : ℚ)) its
        (0 + priceOf p0 * (it.quantity : ℚ))]
      ring

/-- C2: a successful placement yields an order whose status is the
"confirmed" status, whose delivery date is the placement date plus 3 days,
and whose total is the sum of listed price × quantity over the cart lines,
rounded to 2 decimals once at the end; exactly one payment is created, for
the same amount, whose status is "pending" for COD and "success" otherwise;
and the cart is emptied. -/
theorem place_order_success_shape
    (db : DB) (fail : FailSpec) (today : Int) (noid npid nitid : OID)
    (encrypt : String → String) (address_id payment_type_id : OID)
    (card_name card_no upi_id : Option String) (user_id : OID)
    (db' : DB) (res : Except Err OrderDoc) (o : OrderDoc)
    (cart : Cart) (pt : PaymentType) (osd : OrderStatusDoc) (pend succ : PaymentStatusDoc)
    (hsvc : place_order_service db fail today noid npid nitid encrypt address_id
      payment_type_id card_name card_no upi_id user_id = (db', res))
    (hok : res = .ok o)
    (hnodup : (db.products.map Product.id).Nodup)
    (hcart : db.carts.find? (fun c => c.user_id == user_id) = some cart)
    (hpt : db.payment_types.find? (fun t => t.id == payment_type_id) = some pt)
    (hosd : db.order_status.find? (fun s => s.status == "confirmed") = some osd)
    (hpend : db.payment_status.find? (fun s => s.status == "pending") = some pend)
    (hsucc : db.payment_status.find? (fun s => s.status == "success") = some succ) :
    o.status_id = osd.id ∧
    o.delivery_date = some (today + 3) ∧
    o.total = round2 (specLineTotal db.products
      (db.cart_items.filter (fun ci => ci.cart_id == cart.id))) ∧
    (∃ pay : PaymentRow, db'.payments = db.payments ++ [pay] ∧ pay.order_id = o.id ∧
      pay.amount = o.total ∧
      pay.payment_status_id =
        (if pyLower (pyStrip pt.type) = "cod" then pend.id else succ.id)) ∧
    db'.cart_items.filter (fun ci => ci.cart_id == cart.id) = [] := by
  subst hok
  unfold place_order_service at hsvc
  cases hpre : place_order_pre db address_id payment_type_id card_name card_no upi_id
      user_id with
  | error e =>
    simp only [hpre] at hsvc
    obtain ⟨-, h2⟩ := Prod.mk.injEq .. ▸ hsvc
    exact Except.noConfusion h2
  | ok ctx =>
    simp only [hpre] at hsvc
    cases htxn : place_order_txn db ctx fail today noid npid nitid encrypt with
    | error e =>
      simp only [htxn] at hsvc
      obtain ⟨-, h2⟩ := Prod.mk.injEq .. ▸ hsvc
      exact Except.noConfusion h2
    | ok v =>
      obtain ⟨db2, order⟩ := v
      simp only [htxn] at hsvc
      obtain ⟨h1, h2⟩ := Prod.mk.injEq .. ▸ hsvc
      injection h2 with h2
      subst h1 h2
      obtain ⟨prods, raw, hres, horder, hdb2⟩ := place_order_txn_ok htxn
      obtain ⟨addr, pt2, psdoc, cart2, osd2, -, hpt2, hptype, -, hps, hpsid, hcart2,
        hctxcart, hitems, -, hosd2, hconf, -, -, -, -, -⟩ := place_order_pre_ok hpre
      rw [hpt] at hpt2
      injection hpt2 with hpt2
      rw [hcart] at hcart2
      injection hcart2 with hcart2
      rw [hosd] at hosd2
      injection hosd2 with hosd2
      subst hpt2 hcart2 hosd2
      obtain ⟨htot, -, -⟩ := reserveAll_total hnodup hres
      rw [zero_add] at htot
      subst horder hdb2
      refine ⟨hconf, rfl, ?_, ?_, ?_⟩
      · show round2 raw = _
        rw [htot, hitems]
      · refine ⟨placedPayment ctx noid npid (round2 raw), rfl, rfl, ?_, ?_⟩
        · show round2 raw = round2 raw
          rfl
        · show ctx.payment_status_id = _
          rw [hpsid]
          by_cases hcod : ctx.ptype = "cod"
          · rw [if_pos (hptype ▸ hcod)]
            rw [if_pos hcod] at hps
            rw [hpend] at hps
            injection hps with hps
            rw [hps]
          · rw [if_neg (hptype ▸ hcod)]
            rw [if_neg hcod] at hps
            rw [hsucc] at hps
            injection hps with hps
            rw [hps]
      · show (db.cart_items.filter (fun ci => ci.cart_id != ctx.cart.id)).filter
            (fun ci => ci.cart_id == cart.id) = []
        rw [List.filter_eq_nil_iff]
        intro ci hci
        have := List.of_mem_filter hci
        rw [hctxcart] at this
        simp only [bne_iff_ne, ne_eq] at this
        simp [this]

/-- Concrete store for the COD end-to-end example: user 1 has a cart holding
2 of product 1 (price 100) and 1 of product 2 (price 50), pays COD. -/
def codDB : DB :=
  { products := [⟨1, some 100, none, 5, false⟩, ⟨2, some 50, none, 3, false⟩]
    user_address := [⟨60, 1, exSnap⟩]
    payment_types := [⟨70, "cod"⟩]
    payment_status := [⟨80, "pending"⟩, ⟨81, "success"⟩]
    order_status := [⟨2, "confirmed", "confirmed"⟩]
    carts := [⟨90, 1⟩]
    cart_items := [⟨90, 1, 2, none⟩, ⟨90, 2, 1, none⟩]
    orders := []
    order_items := []
    payments := []
    card_details := []
    upi_details := []
    return_status := []
    exchange_status := []
    returns := []
    exchanges := [] }

/-- Witness for `place_order_success_shape`: the COD example yields one
payment of total 250.00 in status "pending" (id 80), and an emptied cart. -/
theorem place_order_success_shape_witness :
    ∃ pay : PaymentRow,
      ((place_order_service codDB ⟨false, false, false, false, false, false⟩ 0 100 200 300
        id 60 70 none none none 1).1).payments = codDB.payments ++ [pay] ∧
      pay.payment_status_id = 80 ∧
      pay.amount = (250 : ℚ) ∧
      ((place_order_service codDB ⟨false, false, false, false, false, false⟩ 0 100 200 300
        id 60 70 none none none 1).1).cart_items.filter (fun ci => ci.cart_id == 90) = [] := by
  obtain ⟨-, -, htotal, ⟨pay, hpays, -, hamt, hst⟩, hempty⟩ :=
    place_order_success_shape codDB ⟨false, false, false, false, false, false⟩ 0 100 200 300
      id 60 70 none none none 1 _ _ _ ⟨90, 1⟩ ⟨70, "cod"⟩ ⟨2, "confirmed", "confirmed"⟩
      ⟨80, "pending"⟩ ⟨81, "success"⟩ rfl rfl (by decide) rfl rfl rfl rfl rfl
  refine ⟨pay, hpays, ?_, ?_, hempty⟩
  · rw [hst]
    decide
  · rw [hamt, htotal]
    norm_num [specLineTotal, priceOfId, priceOf, round2, roundHalfEven, codDB]

/-- Concrete store where placement must fail: the cart asks for 99 of a
product with only 5 in stock. -/
def failDB : DB := { codDB with cart_items := [⟨90, 1, 99, none⟩] }

/-- Witness for `place_order_atomicity`: the insufficient-stock attempt on
`failDB` leaves the store exactly as it was. -/
theorem place_order_atomicity_witness :
    (place_order_service failDB ⟨false, false, false, false, false, false⟩ 0 100 200 300
      id 60 70 none none none 1).1 = failDB :=
  (place_order_atomicity failDB ⟨false, false, false, false, false, false⟩ 0 100 200 300
      id 60 70 none none none 1 _ _ rfl).1 insufficientStockErr rfl

-- ----------------- C8: payment-detail validation -----------------

theorem digit_not_whitespace (c : Char) (h : c.isDigit = true) : c.isWhitespace = false := by
  simp only [Char.isDigit, Bool.and_eq_true, decide_eq_true_eq] at h
  obtain ⟨h1, h2⟩ := h
  apply Bool.eq_false_iff.mpr
  intro hw
  simp only [Char.isWhitespace, Bool.or_eq_true, decide_eq_true_eq] at hw
  rcases hw with ((hc | hc) | hc) | hc <;> subst hc <;> exact absurd h1 (by decide)

theorem mem_dropWhile_of_not {p : α → Bool} {l : List α} {c : α}
    (hc : c ∈ l) (hp : p c = false) : c ∈ l.dropWhile p := by
  have := List.takeWhile_append_dropWhile p l
  rw [← this] at hc
  rcases List.mem_append.mp hc with h | h
  · exact absurd (List.mem_takeWhile_imp h) (by simp [hp])
  · exact h

theorem stripChars_eq_nil_imp {l : List Char} (h : stripChars l = []) :
    ∀ c ∈ l, c.isWhitespace = true := by
  unfold stripChars at h
  rw [List.reverse_eq_nil_iff, List.dropWhile_eq_nil_iff] at h
  intro c hc
  by_cases hw : c.isWhitespace = true
  · exact hw
  · have hmem : c ∈ l.dropWhile Char.isWhitespace :=
      mem_dropWhile_of_not hc (Bool.eq_false_iff.mpr hw)
    exact h c (List.mem_reverse.mpr hmem)

theorem pyStrip_ne_empty_of_digits {no : String}
    (hlen : 12 ≤ (removeSpaces no).length)
    (hdig : (removeSpaces no).toList.all Char.isDigit = true) :
    pyStrip no ≠ "" := by
  intro hc
  have hnil : stripChars no.toList = [] := by
    have := congrArg String.data hc
    exact this
  have hws := stripChars_eq_nil_imp hnil
  have hpos : 0 < (no.toList.filter (fun c => c ≠ ' ')).length := by
    have : (removeSpaces no).length = (no.toList.filter (fun c => c ≠ ' ')).length := rfl
    omega
  obtain ⟨c, hcmem⟩ := List.exists_mem_of_length_pos hpos
  have hcdig : c.isDigit = true := by
    have : ∀ x ∈ (removeSpaces no).toList, x.isDigit = true := List.all_eq_true.mp hdig
    exact this c hcmem
  have hcl : c ∈ no.toList := (List.mem_filter.mp hcmem).1
  have := hws c hcl
  rw [digit_not_whitespace c hcdig] at this
  exact Bool.noConfusion this

/-- Every success of `_require_card_details`, characterised. -/
theorem require_card_ok_iff (cn cno : Option String) :
    (∃ v, require_card_details cn cno = .ok v) ↔
      ((∃ nm, cn = some nm ∧ pyStrip nm ≠ "") ∧
       (∃ no, cno = some no ∧ 12 ≤ (removeSpaces no).length ∧
         (removeSpaces no).length ≤ 19 ∧
         (removeSpaces no).toList.all Char.isDigit = true)) := by
  unfold require_card_details
  constructor
  · intro ⟨v, hv⟩
    cases cn with
    | none => exact Except.noConfusion hv
    | some nm =>
      dsimp only at hv
      by_cases hnm : pyStrip nm = ""
      · rw [if_pos hnm] at hv; exact Except.noConfusion hv
      · rw [if_neg hnm] at hv
        cases cno with
        | none => exact Except.noConfusion hv
        | some no =>
          dsimp only at hv
          by_cases hno : pyStrip no = ""
          · rw [if_pos hno] at hv; exact Except.noConfusion hv
          · rw [if_neg hno] at hv
            by_cases hcond : ¬(12 ≤ (removeSpaces no).length ∧
                (removeSpaces no).length ≤ 19) ∨
                ¬((removeSpaces no).toList.all Char.isDigit = true)
            · rw [if_pos hcond] at hv; exact Except.noConfusion hv
            · push_neg at hcond
              exact ⟨⟨nm, rfl, hnm⟩, ⟨no, rfl, hcond.1.1, hcond.1.2, hcond.2⟩⟩
  · intro ⟨⟨nm, hnm, hnmne⟩, ⟨no, hno, h12, h19, hdig⟩⟩
    subst hnm hno
    refine ⟨(pyStrip nm, removeSpaces no), ?_⟩
    dsimp only
    rw [if_neg hnmne, if_neg (pyStrip_ne_empty_of_digits h12 hdig),
      if_neg (by push_neg; exact ⟨⟨h12, h19⟩, hdig⟩)]

theorem head_dropWhile_false {p : α → Bool} :
    ∀ {l : List α} {c : α} {rest : List α}, l.dropWhile p = c :: rest → p c = false := by
  intro l
  induction l with
  | nil => intro c rest h; simp at h
  | cons x xs ih =>
    intro c rest h
    rw [List.dropWhile_cons] at h
    by_cases hp : p x = true
    · rw [if_pos hp] at h
      exact ih h
    · rw [if_neg hp] at h
      injection h with h1 h2
      rw [← h1]
      exact Bool.eq_false_iff.mpr hp

theorem takeWhile_dropWhile_append {p : α → Bool} :
    ∀ {L : List α} {a : α} {B : List α}, (∀ c ∈ L, p c = true) → p a = false →
      (L ++ a :: B).takeWhile p = L ∧ (L ++ a :: B).dropWhile p = a :: B := by
  intro L
  induction L with
  | nil =>
    intro a B h ha
    simp [List.takeWhile_cons, List.dropWhile_cons, ha]
  | cons x xs ih =>
    intro a B h ha
    have hx : p x = true := h x (by simp)
    obtain ⟨ih1, ih2⟩ := ih (fun c hc => h c (List.mem_cons_of_mem x hc)) ha
    constructor
    · rw [List.cons_append, List.takeWhile_cons, if_pos hx, ih1]
    · rw [List.cons_append, List.dropWhile_cons, if_pos hx, ih2]

/-- `_UPI_RE.fullmatch` characterised: the string is local-part `@` bank with
local part of length ≥ 2 over `[a-zA-Z0-9.\-_]` and bank of ≥ 2 ASCII
letters. -/
theorem upiMatch_iff (s : String) :
    upiMatch s = true ↔ ∃ L B : List Char, s.toList = L ++ '@' :: B ∧
      2 ≤ L.length ∧ L.all upiLocalChar = true ∧
      2 ≤ B.length ∧ B.all Char.isAlpha = true := by
  unfold upiMatch
  constructor
  · intro h
    cases hdw : s.toList.dropWhile (fun c => c ≠ '@') with
    | nil => rw [hdw] at h; exact Bool.noConfusion h
    | cons c rest =>
      rw [hdw] at h
      have hc : c = '@' := by
        have := head_dropWhile_false hdw
        simpa using this
      subst hc
      simp only [Bool.and_eq_true, decide_eq_true_eq] at h
      obtain ⟨⟨⟨hl2, hlall⟩, hb2⟩, hball⟩ := h
      refine ⟨s.toList.takeWhile (fun c => c ≠ '@'), rest, ?_, hl2, hlall, hb2, hball⟩
      conv_lhs => rw [← List.takeWhile_append_dropWhile (fun c => c ≠ '@') s.toList]
      rw [hdw]
  · intro ⟨L, B, hs, hl2, hlall, hb2, hball⟩
    have hLne : ∀ c ∈ L, (fun c : Char => decide (c ≠ '@')) c = true := by
      intro c hc
      have hloc : upiLocalChar c = true := List.all_eq_true.mp hlall c hc
      refine decide_eq_true ?_
      intro hceq
      subst hceq
      exact absurd hloc (by decide)
    have hat : (fun c : Char => decide (c ≠ '@')) '@' = false := by decide
    obtain ⟨htw, hdw⟩ := takeWhile_dropWhile_append hLne hat
    rw [hs, hdw, htw]
    simp only [Bool.and_eq_true, decide_eq_true_eq]
    exact ⟨⟨⟨hl2, hlall⟩, hb2⟩, hball⟩

/-- **C8.** Payment-detail validation at placement: `_require_card_details`
accepts exactly when the card name is non-blank after stripping and the card
number, after removing spaces, is 12-19 characters all digits;
`_require_upi_details` accepts exactly when the stripped handle fully matches
`_UPI_RE`, whose matches are exactly `local-part@bank` with a local part of
length ≥ 2 over `[a-zA-Z0-9.\-_]` and a bank of ≥ 2 letters; every validation
failure is a 400 error; and a validation failure is raised before the
transaction is entered, so the store is returned unchanged with that error. -/
theorem payment_validation_spec :
    (∀ cn cno : Option String,
      (∃ v, require_card_details cn cno = .ok v) ↔
        ((∃ nm, cn = some nm ∧ pyStrip nm ≠ "") ∧
         (∃ no, cno = some no ∧ 12 ≤ (removeSpaces no).length ∧
           (removeSpaces no).length ≤ 19 ∧
           (removeSpaces no).toList.all Char.isDigit = true))) ∧
    (∀ u : Option String,
      (∃ v, require_upi_details u = .ok v) ↔
        (∃ s, u = some s ∧ upiMatch (pyStrip s) = true)) ∧
    (∀ s : String, upiMatch s = true ↔ ∃ L B : List Char,
        s.toList = L ++ '@' :: B ∧ 2 ≤ L.length ∧ L.all upiLocalChar = true ∧
        2 ≤ B.length ∧ B.all Char.isAlpha = true) ∧
    (∀ (cn cno : Option String) (e : Err),
      require_card_details cn cno = .error e → e.status_code = 400) ∧
    (∀ (u : Option String) (e : Err),
      require_upi_details u = .error e → e.status_code = 400) ∧
    (∀ (db : DB) (fail : FailSpec) (today : Int) (noid npid nitid : OID)
        (encrypt : String → String) (aid ptid : OID) (cn cno upi : Option String)
        (uid : OID) (addr : UserAddress) (pt : PaymentType) (psdoc : PaymentStatusDoc)
        (cart : Cart) (osd : OrderStatusDoc) (e : Err),
      db.user_address.find? (fun a => a.id == aid && a.user_id == uid) = some addr →
      db.payment_types.find? (fun t => t.id == ptid) = some pt →
      pyLower (pyStrip pt.type) = "card" →
      db.payment_status.find? (fun s => s.status == "success") = some psdoc →
      db.carts.find? (fun c => c.user_id == uid) = some cart →
      (db.cart_items.filter (fun ci => ci.cart_id == cart.id)).isEmpty = false →
      db.order_status.find? (fun s => s.status == "confirmed") = some osd →
      require_card_details cn cno = .error e →
      place_order_service db fail today noid npid nitid encrypt aid ptid cn cno upi uid
        = (db, .error e)) ∧
    (∀ (db : DB) (fail : FailSpec) (today : Int) (noid npid nitid : OID)
        (encrypt : String → String) (aid ptid : OID) (cn cno upi : Option String)
        (uid : OID) (addr : UserAddress) (pt : PaymentType) (psdoc : PaymentStatusDoc)
        (cart : Cart) (osd : OrderStatusDoc) (e : Err),
      db.user_address.find? (fun a => a.id == aid && a.user_id == uid) = some addr →
      db.payment_types.find? (fun t => t.id == ptid) = some pt →
      pyLower (pyStrip pt.type) = "upi" →
      db.payment_status.find? (fun s => s.status == "success") = some psdoc →
      db.carts.find? (fun c => c.user_id == uid) = some cart →
      (db.cart_items.filter (fun ci => ci.cart_id == cart.id)).isEmpty = false →
      db.order_status.find? (fun s => s.status == "confirmed") = some osd →
      require_upi_details upi = .error e →
      place_order_service db fail today noid npid nitid encrypt aid ptid cn cno upi uid
        = (db, .error e)) := by
  refine ⟨require_card_ok_iff, ?_, upiMatch_iff, ?_, ?_, ?_, ?_⟩
  · intro u
    constructor
    · intro ⟨v, hv⟩
      unfold require_upi_details at hv
      cases u with
      | none => exact Except.noConfusion hv
      | some s =>
        dsimp only at hv
        by_cases hse : pyStrip s = ""
        · rw [if_pos hse] at hv; exact Except.noConfusion hv
        · rw [if_neg hse] at hv
          by_cases hm : upiMatch (pyStrip s) = true
          · exact ⟨s, rfl, hm⟩
          · rw [if_neg hm] at hv; exact Except.noConfusion hv
    · intro ⟨s, hs, hm⟩
      subst hs
      refine ⟨pyStrip s, ?_⟩
      unfold require_upi_details
      dsimp only
      have hse : pyStrip s ≠ "" := by
        intro hc
        rw [hc] at hm
        exact absurd hm (by decide)
      rw [if_neg hse, if_pos hm]
  · intro cn cno e hv
    unfold require_card_details at hv
    cases cn with
    | none => rw [← Except.error.inj hv]
    | some nm =>
      dsimp only at hv
      by_cases hnm : pyStrip nm = ""
      · rw [if_pos hnm] at hv; rw [← Except.error.inj hv]
      · rw [if_neg hnm] at hv
        cases cno with
        | none => rw [← Except.error.inj hv]
        | some no =>
          dsimp only at hv
          by_cases hno : pyStrip no = ""
          · rw [if_pos hno] at hv; rw [← Except.error.inj hv]
          · rw [if_neg hno] at hv
            by_cases hcond : ¬(12 ≤ (removeSpaces no).length ∧
                (removeSpaces no).length ≤ 19) ∨
                ¬((removeSpaces no).toList.all Char.isDigit = true)
            · rw [if_pos hcond] at hv; rw [← Except.error.inj hv]
            · rw [if_neg hcond] at hv; exact Except.noConfusion hv
  · intro u e hv
    unfold require_upi_details at hv
    cases u with
    | none => rw [← Except.error.inj hv]
    | some s =>
      dsimp only at hv
      by_cases hse : pyStrip s = ""
      · rw [if_pos hse] at hv; rw [← Except.error.inj hv]
      · rw [if_neg hse] at hv
        by_cases hm : upiMatch (pyStrip s) = true
        · rw [if_pos hm] at hv; exact Except.noConfusion hv
        · rw [if_neg hm] at hv; rw [← Except.error.inj hv]
  · intro db fail today noid npid nitid encrypt aid ptid cn cno upi uid addr pt psdoc
      cart osd e haddr hpt hcard hps hcart hne hosd hreq
    have hpre : place_order_pre db aid ptid cn cno upi uid = .error e := by
      unfold place_order_pre
      rw [haddr]
      dsimp only
      rw [hpt]
      dsimp only
      rw [hcard, if_pos (Or.inr (Or.inl rfl))]
      simp only [show (if ("card" : String) = "cod" then "pending" else "success")
        = "success" from rfl]
      rw [hps]
      dsimp only
      rw [hcart]
      dsimp only
      rw [hne, if_neg Bool.false_ne_true, hosd]
      dsimp only
      rw [if_pos trivial, hreq]
    unfold place_order_service
    rw [hpre]
  · intro db fail today noid npid nitid encrypt aid ptid cn cno upi uid addr pt psdoc
      cart osd e haddr hpt hupi hps hcart hne hosd hreq
    have hpre : place_order_pre db aid ptid cn cno upi uid = .error e := by
      unfold place_order_pre
      rw [haddr]
      dsimp only
      rw [hpt]
      dsimp only
      rw [hupi, if_pos (Or.inr (Or.inr rfl))]
      simp only [show (if ("upi" : String) = "cod" then "pending" else "success")
        = "success" from rfl]
      rw [hps]
      dsimp only
      rw [hcart]
      dsimp only
      rw [hne, if_neg Bool.false_ne_true, hosd]
      dsimp only
      rw [if_neg (by decide : ¬("upi" : String) = "card")]
      rw [if_pos trivial, hreq]
    unfold place_order_service
    rw [hpre]

/-- Concrete store for a card payment attempt: `codDB` with the single
payment type relabelled `card`. -/
def cardDB : DB := { codDB with payment_types := [⟨70, "card"⟩] }

/-- Witness for `payment_validation_spec`: a well-formed card accepted, a
well-formed UPI handle matched, and a blank card name rejected with 400
before any write. -/
theorem payment_validation_spec_witness :
    (∃ v, require_card_details (some "Alice") (some "4111 1111 1111 1111") = .ok v) ∧
    upiMatch "jo@oksbi" = true ∧
    place_order_service cardDB ⟨false, false, false, false, false, false⟩ 0 100 200 300
      id 60 70 (some " ") none none 1
      = (cardDB, .error ⟨400, "card_name is required for CARD payments"⟩) := by
  refine ⟨?_, ?_, ?_⟩
  · exact (payment_validation_spec.1 (some "Alice") (some "4111 1111 1111 1111")).mpr
      ⟨⟨"Alice", rfl, by decide⟩,
       ⟨"4111 1111 1111 1111", rfl, by decide, by decide, by decide⟩⟩
  · exact (payment_validation_spec.2.2.1 "jo@oksbi").mpr
      ⟨['j', 'o'], ['o', 'k', 's', 'b', 'i'], rfl, by decide, by decide, by decide,
        by decide⟩
  · exact payment_validation_spec.2.2.2.2.2.1 cardDB
      ⟨false, false, false, false, false, false⟩ 0 100 200 300 id 60 70
      (some " ") none none 1 _ _ _ _ _ _ rfl rfl rfl rfl rfl rfl rfl rfl

end TrueStyle
